import Mathlib

/-!
Verification development for the chemprop multifidelity experiment harness.

The Python sources embedded here are:
* `src/chemprop/data/v2/dataloader.py` — `collate_graphs` and `MoleculeDataLoader`;
* `src/multifidelity_end2end.py` — `main`, `str2bool`, `eval_metrics` and the
  argument handling.

Python exceptions are modelled with an `Except PyError` result; machine floats
are modelled as rationals (`ℚ`), with `Option ℚ` where a value may be NaN;
randomness (numpy RNG draws, noise vectors) is modelled by passing the drawn
values as explicit inputs.
-/

/-- The Python exceptions raised by the modelled code paths. -/
inductive PyError where
  | keyError (k : String)
  | valueError
  | typeError
  | indexError
  | argumentTypeError
  | notImplementedError
deriving DecidableEq, Repr

/-- A Python value that is either a `bool` or a `str`, the two input kinds
`str2bool` distinguishes (`isinstance(v, bool)`). -/
inductive StrOrBool where
  | bool (b : Bool)
  | str (s : String)
deriving DecidableEq, Repr

/-- The strings `str2bool` maps to `True`: `('yes', 'true', 't', 'y', '1')`. -/
def truthyStrings : List String := ["yes", "true", "t", "y", "1"]

/-- The strings `str2bool` maps to `False`: `('no', 'false', 'f', 'n', '0')`. -/
def falsyStrings : List String := ["no", "false", "f", "n", "0"]

/-- Python `str.lower()`: lower-case every character (ASCII, which covers the
command-line flag values the script compares against). -/
def pyLower (s : String) : String := String.mk (s.data.map Char.toLower)

/-- Embedding of `str2bool` from `multifidelity_end2end.py`: a `bool` input is
returned unchanged; otherwise the lower-cased string is looked up in the truthy
and falsy lists, and any other string raises `ArgumentTypeError`. -/
def str2bool : StrOrBool → Except PyError Bool
  | .bool b => .ok b
  | .str v =>
      if pyLower v ∈ truthyStrings then .ok true
      else if pyLower v ∈ falsyStrings then .ok false
      else .error .argumentTypeError

/-- The command-line arguments of `multifidelity_end2end.py` that the modelled
code paths read (`add_args`). Numeric flags are rationals standing for the
parsed Python floats; `add_pn_bias_to_make_lf` and `lf_hf_size_ratio` are the
integer flags. -/
structure Args where
  model_type : String
  hf_col_name : String
  lf_col_name : String
  add_pn_bias_to_make_lf : Int
  add_constant_bias_to_make_lf : ℚ
  add_gauss_noise_to_make_lf : ℚ
  add_descriptor_bias_to_make_lf : ℚ
  lf_hf_size_ratio : Int
  lf_superset_of_hf : Bool
  seed : Int
  results_dir : String
deriving Repr

/-- A filesystem side effect of `main` (directory creation, chdir, file
writes), used to state that validation errors precede any output. -/
inductive Effect where
  | makedirs (dir : String)
  | chdir (dir : String)
  | mkdir (dir : String)
  | writeFile (name : String)
deriving DecidableEq, Repr

/-- The input-validation checks at the top of `main` (lines 27-36): a
`single_fidelity` run with any of the pn/gauss/descriptor low-fidelity flags
positive raises `ValueError`; the two unimplemented model types raise
`NotImplementedError`. -/
def validateArgs (a : Args) : Except PyError Unit :=
  if a.model_type = "single_fidelity" ∧
      (a.add_pn_bias_to_make_lf > 0 ∨ a.add_gauss_noise_to_make_lf > 0 ∨
        a.add_descriptor_bias_to_make_lf > 0) then
    .error .valueError
  else if a.model_type = "multi_fidelity_weight_sharing_non_diff" ∨
      a.model_type = "trad_delta_ml" then
    .error .notImplementedError
  else
    .ok ()

/-- The entry of `main` up to writing `args.json` (lines 27-49): validation
first, then the results directory, timestamped run directory and the args dump.
Returns the list of filesystem effects performed, in order; an error before any
effect means nothing was created. `ts` is the timestamp string. -/
def mainSetup (a : Args) (ts : String) : Except PyError (List Effect) := do
  validateArgs a
  .ok [Effect.makedirs a.results_dir, Effect.chdir a.results_dir,
       Effect.mkdir ts, Effect.chdir ts, Effect.writeFile "args.json"]

/-- Modelled from the spec: `chemprop.v2.data.MoleculeDatapoint` (its module
`datapoints.py` is not in the provided sources) — a datapoint carries a SMILES
string identifier and its target values; targets may be NaN (`none`), and the
`gt_targets` / `lt_targets` inequality-flag attributes exist on every
datapoint. -/
structure MoleculeDatapoint where
  smi : String
  targets : List (Option ℚ)
  gt_targets : List (Option Bool) := []
  lt_targets : List (Option Bool) := []
deriving Repr

instance : Inhabited MoleculeDatapoint := ⟨⟨"", [], [], []⟩⟩

/-- Modelled from the spec: the samplers of `chemprop.data.v2.sampler`
(`ClassBalanceSampler`, `SeededSampler`; their module is not in the provided
sources). Only which constructor was chosen matters to the claims. -/
inductive Sampler where
  | classBalanceSampler (seed : Option Int) (shuffle : Bool)
  | seededSampler (seed : Int) (shuffle : Bool)
deriving Repr

/-- Embedding of `MoleculeDataLoader.__init__` (lines 96-101): the sampler
stored on the loader — a `ClassBalanceSampler` when `class_balance`, a
`SeededSampler` when `shuffle` and a seed is given, and `None` otherwise. -/
def mkSampler (class_balance : Bool) (seed : Option Int) (shuffle : Bool) :
    Option Sampler :=
  if class_balance then some (Sampler.classBalanceSampler seed shuffle)
  else if shuffle ∧ seed.isSome then some (Sampler.seededSampler (seed.getD 0) shuffle)
  else none

/-- The state of a constructed `MoleculeDataLoader`: its dataset and the
fields stored by `__init__`. -/
structure MoleculeDataLoader where
  dataset : List MoleculeDatapoint
  class_balance : Bool
  shuffle : Bool
  sampler : Option Sampler

/-- Constructing a `MoleculeDataLoader` (lines 82-110). -/
def mkLoader (dataset : List MoleculeDatapoint) (class_balance : Bool)
    (seed : Option Int) (shuffle : Bool) : MoleculeDataLoader :=
  { dataset := dataset, class_balance := class_balance, shuffle := shuffle,
    sampler := mkSampler class_balance seed shuffle }

/-- Iterating a Python value expected to be a sampler: `for i in self.sampler`
with `self.sampler is None` raises `TypeError`. Modelled from the spec for the
non-`None` case (sampler modules absent): a sampler yields some index
sequence. -/
def iterateSampler : Option Sampler → Except PyError (List Nat)
  | none => .error .typeError
  | some _ => .ok []

/-- `len(self.sampler)` with `self.sampler is None` raises `TypeError`.
Modelled from the spec for the non-`None` case: a sampler has a length. -/
def samplerLen : Option Sampler → Except PyError Nat
  | none => .error .typeError
  | some _ => .ok 0

/-- `dataset[0]`: raises `IndexError` on an empty dataset. -/
def datasetGet0 (ds : List MoleculeDatapoint) : Except PyError MoleculeDatapoint :=
  match ds with
  | [] => .error .indexError
  | d :: _ => .ok d

/-- Embedding of the `targets` property (lines 112-124): raise `ValueError`
when class balance or shuffle is enabled, else build the target array by
iterating `self.sampler`. -/
def MoleculeDataLoader.targets (dl : MoleculeDataLoader) :
    Except PyError (List (List (Option ℚ))) :=
  if dl.class_balance ∨ dl.shuffle then .error .valueError
  else do
    let idxs ← iterateSampler dl.sampler
    .ok (idxs.map (fun i => ((dl.dataset.getD i default).targets)))

/-- Embedding of the `gt_targets` property (lines 126-141): the `ValueError`
check, then the `hasattr(self.dataset[0], ...)` access (always true for the
modelled datapoints, but `dataset[0]` itself can raise `IndexError`), then
iteration of `self.sampler`. -/
def MoleculeDataLoader.gt_targets (dl : MoleculeDataLoader) :
    Except PyError (List (List (Option Bool))) :=
  if dl.class_balance ∨ dl.shuffle then .error .valueError
  else do
    let _ ← datasetGet0 dl.dataset
    let idxs ← iterateSampler dl.sampler
    .ok (idxs.map (fun i => ((dl.dataset.getD i default).gt_targets)))

/-- Embedding of the `lt_targets` property (lines 143-158), structurally
identical to `gt_targets`. -/
def MoleculeDataLoader.lt_targets (dl : MoleculeDataLoader) :
    Except PyError (List (List (Option Bool))) :=
  if dl.class_balance ∨ dl.shuffle then .error .valueError
  else do
    let _ ← datasetGet0 dl.dataset
    let idxs ← iterateSampler dl.sampler
    .ok (idxs.map (fun i => ((dl.dataset.getD i default).lt_targets)))

/-- Embedding of the `iter_size` property (lines 160-163):
`len(self.sampler)`. -/
def MoleculeDataLoader.iter_size (dl : MoleculeDataLoader) : Except PyError Nat :=
  samplerLen dl.sampler

/-- A pandas dataframe as the script uses one: a row index of SMILES labels
and named numeric columns. -/
structure DataFrame where
  index : List String
  cols : List (String × List ℚ)
deriving Repr

/-- `df[c]` read access: the column named `c`, or `KeyError`. -/
def DataFrame.getCol (df : DataFrame) (c : String) : Except PyError (List ℚ) :=
  match df.cols.find? (fun p => p.1 == c) with
  | some p => .ok p.2
  | none => .error (.keyError c)

/-- Column-list update: overwrite the column named `c` when present (pandas
column names are unique), append it otherwise. -/
def setColAux (cols : List (String × List ℚ)) (c : String) (v : List ℚ) :
    List (String × List ℚ) :=
  match cols with
  | [] => [(c, v)]
  | p :: rest => if p.1 == c then (c, v) :: rest else p :: setColAux rest c v

/-- `df[c] = v` write access. -/
def DataFrame.setCol (df : DataFrame) (c : String) (v : List ℚ) : DataFrame :=
  ⟨df.index, setColAux df.cols c v⟩

/-- Elementwise addition of two aligned pandas series. -/
def addVec (xs ys : List ℚ) : List ℚ := List.zipWith (fun x y => x + y) xs ys

/-- `np.polyval(coeffs, x)`: the polynomial with highest-order coefficient
first, evaluated by Horner's rule. -/
def polyval (coeffs : List ℚ) (x : ℚ) : ℚ :=
  coeffs.foldl (fun acc c => acc * x + c) 0

/-- Lines 84-85: for every model type other than `single_fidelity`, the LF
column is initialised as a copy of the HF column. -/
def stepCopyHfToLf (a : Args) (df : DataFrame) : Except PyError DataFrame :=
  if a.model_type ≠ "single_fidelity" then do
    let hf ← df.getCol a.hf_col_name
    pure (df.setCol a.lf_col_name hf)
  else pure df

/-- Lines 87-91: when `add_pn_bias_to_make_lf > 0`, add the polynomial with
coefficients `pnCoeffs` (standing for
`np.random.uniform(-1, 1, add_pn_bias_to_make_lf + 1)`) evaluated on the HF
column to the LF column. -/
def stepPnBias (a : Args) (pnCoeffs : List ℚ) (df : DataFrame) :
    Except PyError DataFrame :=
  if a.add_pn_bias_to_make_lf > 0 then do
    let lf ← df.getCol a.lf_col_name
    let hf ← df.getCol a.hf_col_name
    pure (df.setCol a.lf_col_name (addVec lf (hf.map (polyval pnCoeffs))))
  else pure df

/-- Lines 93-95: when `add_constant_bias_to_make_lf != 0.0`, add the constant
to the LF column. -/
def stepConstBias (a : Args) (df : DataFrame) : Except PyError DataFrame :=
  if a.add_constant_bias_to_make_lf ≠ 0 then do
    let lf ← df.getCol a.lf_col_name
    pure (df.setCol a.lf_col_name
      (lf.map (fun x => x + a.add_constant_bias_to_make_lf)))
  else pure df

/-- Lines 97-98: when `add_gauss_noise_to_make_lf > 0.0`, add the
`gauss_noise(df_len, std, seed)` vector to the LF column. Modelled from the
spec: `noisefunctions.gauss_noise` is not in the provided sources; its seeded
Gaussian draw is passed in as `gaussVals`. -/
def stepGaussNoise (a : Args) (gaussVals : List ℚ) (df : DataFrame) :
    Except PyError DataFrame :=
  if a.add_gauss_noise_to_make_lf > 0 then do
    let lf ← df.getCol a.lf_col_name
    pure (df.setCol a.lf_col_name (addVec lf gaussVals))
  else pure df

/-- Lines 100-112: when `add_descriptor_bias_to_make_lf != 0.0`, add the
`descriptor_bias(data_df, descriptors_coefficients)` vector — a
random-weighted sum of the 13 listed RDKit descriptors — to the LF column.
Modelled from the spec: `noisefunctions.descriptor_bias` is not in the
provided sources; the per-row weighted descriptor sums are passed in as
`descVals`. -/
def stepDescriptorBias (a : Args) (descVals : List ℚ) (df : DataFrame) :
    Except PyError DataFrame :=
  if a.add_descriptor_bias_to_make_lf ≠ 0 then do
    let lf ← df.getCol a.lf_col_name
    pure (df.setCol a.lf_col_name (addVec lf descVals))
  else pure df

/-- The number of RDKit descriptors in the `descriptors` list of lines
101-107 (`qed`, `MolWt`, `BalabanJ`, `BertzCT`, `HallKierAlpha`, `Ipc`,
`Kappa1`, `Kappa2`, `Kappa3`, `LabuteASA`, `TPSA`, `MolLogP`, `MolMR`). -/
def numRdkitDescriptors : Nat := 13

/-- Embedding of the low-fidelity synthesis step of `main` (lines 84-112):
the five conditional blocks in source order. The random draws are passed in
as explicit inputs. -/
def synthesizeLf (a : Args) (df : DataFrame)
    (pnCoeffs gaussVals descVals : List ℚ) : Except PyError DataFrame := do
  let df ← stepCopyHfToLf a df
  let df ← stepPnBias a pnCoeffs df
  let df ← stepConstBias a df
  let df ← stepGaussNoise a gaussVals df
  stepDescriptorBias a descVals df

/-- The LF column value after the polynomial-bias block, starting from `hfv`
(the copied HF column). -/
def lfAfterPn (a : Args) (pnCoeffs hfv : List ℚ) : List ℚ :=
  if a.add_pn_bias_to_make_lf > 0 then addVec hfv (hfv.map (polyval pnCoeffs))
  else hfv

/-- The LF column value after the constant-bias block. -/
def lfAfterConst (a : Args) (l : List ℚ) : List ℚ :=
  if a.add_constant_bias_to_make_lf ≠ 0 then
    l.map (fun x => x + a.add_constant_bias_to_make_lf)
  else l

/-- The LF column value after the Gaussian-noise block. -/
def lfAfterGauss (a : Args) (gaussVals l : List ℚ) : List ℚ :=
  if a.add_gauss_noise_to_make_lf > 0 then addVec l gaussVals else l

/-- The LF column value after the descriptor-bias block. -/
def lfAfterDesc (a : Args) (descVals l : List ℚ) : List ℚ :=
  if a.add_descriptor_bias_to_make_lf ≠ 0 then addVec l descVals else l

/-- The LF column a multi-fidelity run ends up with: the HF copy with every
enabled degradation applied in source order. -/
def lfSynth (a : Args) (pnCoeffs gaussVals descVals hfv : List ℚ) : List ℚ :=
  lfAfterDesc a descVals
    (lfAfterGauss a gaussVals (lfAfterConst a (lfAfterPn a pnCoeffs hfv)))

/-- A multi-fidelity argument set used as a concrete witness input. -/
def argsMfDemo : Args :=
  { model_type := "multi_fidelity", hf_col_name := "h298",
    lf_col_name := "h298_lf", add_pn_bias_to_make_lf := 1,
    add_constant_bias_to_make_lf := 5, add_gauss_noise_to_make_lf := 1,
    add_descriptor_bias_to_make_lf := 0, lf_hf_size_ratio := 1,
    lf_superset_of_hf := false, seed := 0, results_dir := "results" }

/-- A two-row dataframe used as a concrete witness input. -/
def dfDemo : DataFrame := ⟨["C", "CC"], [("h298", [1, 2])]⟩

/-- A single-fidelity argument set with only the constant bias enabled, and a
dataframe that happens to carry the LF column, as concrete witness inputs. -/
def argsSfConstDemo : Args :=
  { model_type := "single_fidelity", hf_col_name := "h298",
    lf_col_name := "h298_lf", add_pn_bias_to_make_lf := 0,
    add_constant_bias_to_make_lf := 3, add_gauss_noise_to_make_lf := 0,
    add_descriptor_bias_to_make_lf := 0, lf_hf_size_ratio := 1,
    lf_superset_of_hf := false, seed := 0, results_dir := "results" }

/-- A dataframe carrying both columns, as a concrete witness input. -/
def dfBothColsDemo : DataFrame :=
  ⟨["C", "CC"], [("h298", [1, 2]), ("h298_lf", [10, 20])]⟩


/-- `pd.read_csv(args.data_file, index_col="smiles")` (line 81): the smiles
column becomes the row index, the remaining columns the data columns. -/
def readCsv (smilesCol : List String) (otherCols : List (String × List ℚ)) :
    DataFrame :=
  ⟨smilesCol, otherCols⟩

/-- `df.sample(frac=..., random_state=...)`: the rows at the positions drawn
by the RNG. The drawn positions `sel` are passed in explicitly; pandas draws
`round(frac * len(df))` distinct positions. -/
def DataFrame.sampleByPos (df : DataFrame) (sel : List Nat) : DataFrame :=
  ⟨sel.map (fun i => df.index.getD i ""),
   df.cols.map (fun p => (p.1, sel.map (fun i => p.2.getD i 0)))⟩

/-- The number of rows `df.sample(frac=f)` draws: `round(frac * len(df))`. -/
def pandasSampleSize (n : Nat) (frac : ℚ) : Nat := (round (frac * n)).toNat

/-- `df.drop(index=labels)`: remove every row whose index label is in
`labels`. -/
def DataFrame.dropIndex (df : DataFrame) (labels : List String) : DataFrame :=
  let keep := (List.range df.index.length).filter
    (fun i => decide (df.index.getD i "" ∉ labels))
  ⟨keep.map (fun i => df.index.getD i ""),
   df.cols.map (fun p => (p.1, keep.map (fun i => p.2.getD i 0)))⟩

/-- `df.drop(c, axis=1)`: remove the column named `c`. -/
def DataFrame.dropCol (df : DataFrame) (c : String) : DataFrame :=
  ⟨df.index, df.cols.filter (fun p => !(p.1 == c))⟩

/-- Embedding of the HF/LF dataframe construction of `main` (lines 130-139),
returning `(hf_df, lf_df)`. With `lf_superset_of_hf`, the LF frame is a copy
of the full dataframe and the HF frame a sample of fraction
`1 / lf_hf_size_ratio` of it; otherwise the HF frame is a sample of fraction
`1 / (lf_hf_size_ratio + 1)` and the LF frame is the full dataframe with the
HF rows dropped. `sel` is the list of row positions the sampler drew. -/
def mfDataframes (lf_superset_of_hf : Bool) (df : DataFrame) (sel : List Nat) :
    DataFrame × DataFrame :=
  if lf_superset_of_hf then
    (df.sampleByPos sel, df)
  else
    let hf_df := df.sampleByPos sel
    (hf_df, df.dropIndex hf_df.index)

/-- Embedding of the train/test index construction of `main` (lines 117-154):
a single-fidelity run splits the full dataframe; a multi-fidelity run builds
the HF and LF dataframes, drops the other fidelity's column from each, splits
both, and concatenates LF indices before HF indices. `split` stands for
`split_by_prop_dict[args.split_type]`. -/
def trainTestIndex (a : Args) (df : DataFrame) (sel : List Nat)
    (split : DataFrame → List String × List String) :
    List String × List String :=
  if a.model_type = "single_fidelity" then split df
  else
    let pair := mfDataframes a.lf_superset_of_hf df sel
    let hfSplit := split ((pair.1).dropCol a.lf_col_name)
    let lfSplit := split ((pair.2).dropCol a.hf_col_name)
    (lfSplit.1 ++ hfSplit.1, lfSplit.2 ++ hfSplit.2)

/-- Datapoint construction (lines 186-187): one `MoleculeDatapoint(smi, t)`
per `zip(index, targets)` pair. -/
def mkDatapoints (idx : List String) (ts : List (List (Option ℚ))) :
    List MoleculeDatapoint :=
  List.zipWith (fun smi t => { smi := smi, targets := t }) idx ts

/-- The header of `test_metrics.csv`. -/
def testMetricsHeader : List String :=
  ["MAE_hf", "RMSE_hf", "R2_hf", "MAE_lf", "RMSE_lf", "R2_lf"]

/-- Indexing a numpy row of plain floats: `p[i]`, `IndexError` when out of
bounds. -/
def listGetQ (l : List ℚ) (i : Nat) : Except PyError ℚ :=
  if h : i < l.length then .ok (l.get ⟨i, h⟩) else .error .indexError

/-- Indexing a numpy row of possibly-NaN floats: `t[i]`, `IndexError` when
out of bounds; `none` is a NaN entry. -/
def listGetOQ (l : List (Option ℚ)) (i : Nat) : Except PyError (Option ℚ) :=
  if h : i < l.length then .ok (l.get ⟨i, h⟩) else .error .indexError

/-- The LF half of one iteration of the loop at lines 285-289:
`if not np.isnan(target[0]): targets_lf.append(target[0]);
preds_lf.append(pred[0])` — the contributed `(target, pred)` pair, if any.
Row lengths are whatever `main` built, so each access can raise
`IndexError`. -/
def evalRowLf (t : List (Option ℚ)) (p : List ℚ) :
    Except PyError (Option (ℚ × ℚ)) := do
  let t0 ← listGetOQ t 0
  match t0 with
  | some v => do
    let p0 ← listGetQ p 0
    pure (some (v, p0))
  | none => pure none

/-- The HF half of the same iteration (lines 290-293):
`if not np.isnan(target[1]): ...` with `target[1]` and `pred[1]`. -/
def evalRowHf (t : List (Option ℚ)) (p : List ℚ) :
    Except PyError (Option (ℚ × ℚ)) := do
  let t1 ← listGetOQ t 1
  match t1 with
  | some v => do
    let p1 ← listGetQ p 1
    pure (some (v, p1))
  | none => pure none

/-- The loop of lines 283-293 over `zip(targets, preds)`, building
`((targets_lf, preds_lf), (targets_hf, preds_hf))`; the first out-of-bounds
row access aborts the run with `IndexError`. -/
def collectLfHf : List (List (Option ℚ) × List ℚ) →
    Except PyError ((List ℚ × List ℚ) × (List ℚ × List ℚ))
  | [] => .ok (([], []), ([], []))
  | (t, p) :: rest => do
    let lf ← evalRowLf t p
    let hf ← evalRowHf t p
    let acc ← collectLfHf rest
    .ok ((match lf with
          | some vq => (vq.1 :: acc.1.1, vq.2 :: acc.1.2)
          | none => acc.1),
         (match hf with
          | some vq => (vq.1 :: acc.2.1, vq.2 :: acc.2.2)
          | none => acc.2))

/-- Embedding of the evaluation tail of `main` as far as `test_metrics.csv`
(lines 245-249 and 277-306), as a name/value association in column order;
`none` is a NaN cell. The sklearn metric functions are external and passed in
as `mae`, `rmse`, `r2`. A single-fidelity run scores all test pairs on the HF
columns and writes NaN to the LF columns; every other model type runs the
collection loop of lines 285-293 on the test target and prediction rows
(whose widths are whatever lines 161-162 / 173-174 built: `(lf, hf)` pairs
for the multi-fidelity types, a single HF column for `delta_ml`) and writes
the metric row only if no row access raised `IndexError`. -/
def testMetricsCsv (model_type : String)
    (mae rmse r2 : List ℚ → List ℚ → ℚ)
    (sfTargets sfPreds : List ℚ)
    (mfTargets : List (List (Option ℚ))) (mfPreds : List (List ℚ)) :
    Except PyError (List (String × Option ℚ)) :=
  if model_type = "single_fidelity" then
    .ok [("MAE_hf", some (mae sfTargets sfPreds)),
         ("RMSE_hf", some (rmse sfTargets sfPreds)),
         ("R2_hf", some (r2 sfTargets sfPreds)),
         ("MAE_lf", none), ("RMSE_lf", none), ("R2_lf", none)]
  else do
    let c ← collectLfHf (List.zip mfTargets mfPreds)
    .ok [("MAE_hf", some (mae c.2.1 c.2.2)),
         ("RMSE_hf", some (rmse c.2.1 c.2.2)),
         ("R2_hf", some (r2 c.2.1 c.2.2)),
         ("MAE_lf", some (mae c.1.1 c.1.2)),
         ("RMSE_lf", some (rmse c.1.1 c.1.2)),
         ("R2_lf", some (r2 c.1.1 c.1.2))]

/-- Modelled from the spec: `chemprop.featurizers.molgraph.MolGraph` (its
module is not in the provided sources) — a molecular graph with `n_atoms`
atoms and `n_bonds` directed bonds, per-atom feature rows `X_v`, per-bond
feature rows `X_e`, incoming-bond lists `a2b`, bond-origin map `b2a` and
reverse-bond map `b2revb`. The index maps are total functions; `collate_graphs`
only reads them below `n_atoms` / `n_bonds`. -/
structure MolGraph where
  n_atoms : Nat
  n_bonds : Nat
  X_v : List (List ℚ)
  X_e : List (List ℚ)
  a2b : Nat → List Nat
  b2a : Nat → Nat
  b2revb : Nat → Nat

instance : Inhabited MolGraph :=
  ⟨⟨0, 0, [], [], fun _ => [], fun _ => 0, fun _ => 0⟩⟩

/-- The batched graph returned by `collate_graphs`. -/
structure BatchMolGraph where
  X_v : List (List ℚ)
  X_e : List (List ℚ)
  a2b : List (List Nat)
  b2a : List Nat
  b2revb : List Nat
  a_scope : List (Nat × Nat)
  b_scope : List (Nat × Nat)
  a2a : List (List Nat)

/-- The accumulator of the `for mg in mgs` loop in `collate_graphs`. -/
structure CollateState where
  n_atoms : Nat
  n_bonds : Nat
  a_scope : List (Nat × Nat)
  b_scope : List (Nat × Nat)
  X_vs : List (List ℚ)
  X_es : List (List ℚ)
  a2b : List (List Nat)
  b2a : List Nat
  b2revb : List Nat

/-- One iteration of the `for mg in mgs` loop (lines 27-46): append the
graph's feature rows, extend `a2b` by the graph's incoming-bond lists with
every bond index shifted by the running bond count, extend `b2a` / `b2revb`
with the shifted origin and reverse maps, record the scopes at the running
offsets, and advance the counters. -/
def collateStep (s : CollateState) (mg : MolGraph) : CollateState :=
  { n_atoms := s.n_atoms + mg.n_atoms
    n_bonds := s.n_bonds + mg.n_bonds
    a_scope := s.a_scope ++ [(s.n_atoms, mg.n_atoms)]
    b_scope := s.b_scope ++ [(s.n_bonds, mg.n_bonds)]
    X_vs := s.X_vs ++ mg.X_v
    X_es := s.X_es ++ mg.X_e
    a2b := s.a2b ++ (List.range mg.n_atoms).map
      (fun a => (mg.a2b a).map (fun b => b + s.n_bonds))
    b2a := s.b2a ++ (List.range mg.n_bonds).map (fun b => s.n_atoms + mg.b2a b)
    b2revb := s.b2revb ++ (List.range mg.n_bonds).map
      (fun b => s.n_bonds + mg.b2revb b) }

/-- The loop's initial state (lines 14-25): counters start at 1 and every
array starts with a zero-padding slot — a zero feature row of length
`mgs[0].X_v.shape[0]` (resp. `X_e.shape[0]`), an empty incoming-bond list,
and a 0 entry in `b2a` and `b2revb`. -/
def collateInit (gs : List MolGraph) : CollateState :=
  { n_atoms := 1, n_bonds := 1, a_scope := [], b_scope := []
    X_vs := [List.replicate gs.headI.X_v.length 0]
    X_es := [List.replicate gs.headI.X_e.length 0]
    a2b := [[]], b2a := [0], b2revb := [0] }

/-- The length of the longest list in `ls` (Python `max` over a list that
always contains the padding row, seeded with 0). -/
def maxLen (ls : List (List Nat)) : Nat :=
  ls.foldr (fun l m => max l.length m) 0

/-- Pad a neighbor list with zeros on the right to width `w`. -/
def padRow (w : Nat) (l : List Nat) : List Nat :=
  l ++ List.replicate (w - l.length) 0

/-- Embedding of `collate_graphs` (lines 14-61): run the loop, compute
`max_num_bonds = max(1, max(len(in_bonds) for in_bonds in a2b))`, pad every
neighbor list of the first `n_atoms` rows to that width, and build `a2a` by
indexing `b2a` with `a2b`. -/
def collate_graphs (gs : List MolGraph) : BatchMolGraph :=
  let s := gs.foldl collateStep (collateInit gs)
  let max_num_bonds := max 1 (maxLen s.a2b)
  let a2b := (List.range s.n_atoms).map
    (fun a => padRow max_num_bonds (s.a2b.getD a []))
  { X_v := s.X_vs, X_e := s.X_es, a2b := a2b, b2a := s.b2a,
    b2revb := s.b2revb, a_scope := s.a_scope, b_scope := s.b_scope,
    a2a := a2b.map (fun row => row.map (fun b => s.b2a.getD b 0)) }

/-- Total atom count of a batch. -/
def sumAtoms (gs : List MolGraph) : Nat := (gs.map MolGraph.n_atoms).sum

/-- Total directed-bond count of a batch. -/
def sumBonds (gs : List MolGraph) : Nat := (gs.map MolGraph.n_bonds).sum

/-- Atoms in the graphs preceding position `i`. -/
def sumAtomsBefore (gs : List MolGraph) (i : Nat) : Nat := sumAtoms (gs.take i)

/-- Bonds in the graphs preceding position `i`. -/
def sumBondsBefore (gs : List MolGraph) (i : Nat) : Nat := sumBonds (gs.take i)

/-- Closed form of the `a2b` rows the loop appends, starting from bond
offset `nb`. -/
def batchA2b (nb : Nat) : List MolGraph → List (List Nat)
  | [] => []
  | g :: gs =>
    (List.range g.n_atoms).map (fun a => (g.a2b a).map (fun b => b + nb)) ++
      batchA2b (nb + g.n_bonds) gs

/-- Closed form of the `b2a` entries the loop appends, starting from atom
offset `na`. -/
def batchB2a (na : Nat) : List MolGraph → List Nat
  | [] => []
  | g :: gs =>
    (List.range g.n_bonds).map (fun b => na + g.b2a b) ++
      batchB2a (na + g.n_atoms) gs

/-- Closed form of the `b2revb` entries the loop appends, starting from bond
offset `nb`. -/
def batchB2revb (nb : Nat) : List MolGraph → List Nat
  | [] => []
  | g :: gs =>
    (List.range g.n_bonds).map (fun b => nb + g.b2revb b) ++
      batchB2revb (nb + g.n_bonds) gs

/-- Closed form of a scope list: `(start, count)` pairs where each start is
the previous start plus the previous count. -/
def scopeList (start : Nat) : List Nat → List (Nat × Nat)
  | [] => []
  | c :: cs => (start, c) :: scopeList (start + c) cs

/-- The length of the longest incoming-bond list over all graphs of the
batch. -/
def maxNbrLen (gs : List MolGraph) : Nat :=
  (gs.map (fun g =>
    ((List.range g.n_atoms).map (fun a => (g.a2b a).length)).foldr max 0)).foldr max 0

/-- A two-atom molecular graph with one bond in each direction, as a concrete
witness input. -/
def g1Demo : MolGraph :=
  { n_atoms := 2, n_bonds := 2, X_v := [[1], [2]], X_e := [[5], [6]],
    a2b := fun a => [[1], [0]].getD a [],
    b2a := fun b => [0, 1].getD b 0,
    b2revb := fun b => [1, 0].getD b 0 }

/-- A single-atom, zero-bond molecular graph, as a concrete witness input. -/
def g2Demo : MolGraph :=
  { n_atoms := 1, n_bonds := 0, X_v := [[3]], X_e := [],
    a2b := fun _ => [], b2a := fun _ => 0, b2revb := fun _ => 0 }

theorem find?_setColAux_same (cols : List (String × List ℚ)) (c : String)
    (v : List ℚ) :
    (setColAux cols c v).find? (fun p => p.1 == c) = some (c, v) := by
  induction cols with
  | nil => simp [setColAux]
  | cons p rest ih =>
    rcases eq_or_ne p.1 c with h | h
    · simp [setColAux, h]
    · have hb : (p.1 == c) = false := by simpa using h
      simp [setColAux, hb, List.find?_cons, ih]

theorem find?_setColAux_ne (cols : List (String × List ℚ)) (c c2 : String)
    (v : List ℚ) (h : c ≠ c2) :
    (setColAux cols c v).find? (fun p => p.1 == c2) =
      cols.find? (fun p => p.1 == c2) := by
  have h1 : (c == c2) = false := by simpa using h
  induction cols with
  | nil => simp [setColAux, List.find?_cons, h1]
  | cons p rest ih =>
    rcases eq_or_ne p.1 c with hp | hp
    · have h2 : (p.1 == c2) = false := by rw [hp]; simpa using h
      simp [setColAux, hp, List.find?_cons, h1, h2]
    · have hb : (p.1 == c) = false := by simpa using hp
      rcases eq_or_ne p.1 c2 with hp2 | hp2
      · simp [setColAux, hb, List.find?_cons, hp2, Ne.symm h]
      · have h2 : (p.1 == c2) = false := by simpa using hp2
        simp [setColAux, hb, List.find?_cons, h2, ih]

/-- Reading back the column just written. -/
theorem getCol_setCol_same (df : DataFrame) (c : String) (v : List ℚ) :
    (df.setCol c v).getCol c = .ok v := by
  unfold DataFrame.getCol DataFrame.setCol
  simp [find?_setColAux_same]

/-- Writing one column leaves every other column unchanged. -/
theorem getCol_setCol_ne (df : DataFrame) (c c2 : String) (v : List ℚ)
    (h : c ≠ c2) : (df.setCol c v).getCol c2 = df.getCol c2 := by
  unfold DataFrame.getCol DataFrame.setCol
  simp [find?_setColAux_ne _ _ _ _ h]

theorem stepCopyHfToLf_spec (a : Args) (df : DataFrame) (hfv : List ℚ)
    (hmt : a.model_type ≠ "single_fidelity")
    (hhf : df.getCol a.hf_col_name = .ok hfv) :
    stepCopyHfToLf a df = .ok (df.setCol a.lf_col_name hfv) := by
  unfold stepCopyHfToLf
  rw [if_pos hmt, hhf]
  rfl

theorem stepPnBias_spec (a : Args) (pnCoeffs : List ℚ) (df : DataFrame)
    (lfv hfv : List ℚ) (hcols : a.hf_col_name ≠ a.lf_col_name)
    (hlf : df.getCol a.lf_col_name = .ok lfv)
    (hhf : df.getCol a.hf_col_name = .ok hfv) :
    ∃ df2, stepPnBias a pnCoeffs df = .ok df2 ∧
      df2.getCol a.hf_col_name = .ok hfv ∧
      df2.getCol a.lf_col_name = .ok (if a.add_pn_bias_to_make_lf > 0 then
        addVec lfv (hfv.map (polyval pnCoeffs)) else lfv) := by
  unfold stepPnBias
  by_cases hpn : a.add_pn_bias_to_make_lf > 0
  · rw [if_pos hpn, hlf]
    refine ⟨_, by rw [hhf]; rfl, ?_, ?_⟩
    · rw [getCol_setCol_ne _ _ _ _ (Ne.symm hcols), hhf]
    · rw [getCol_setCol_same, if_pos hpn]
  · rw [if_neg hpn]
    exact ⟨df, rfl, hhf, by rw [hlf, if_neg hpn]⟩

theorem stepConstBias_spec (a : Args) (df : DataFrame)
    (lfv hfv : List ℚ) (hcols : a.hf_col_name ≠ a.lf_col_name)
    (hlf : df.getCol a.lf_col_name = .ok lfv)
    (hhf : df.getCol a.hf_col_name = .ok hfv) :
    ∃ df2, stepConstBias a df = .ok df2 ∧
      df2.getCol a.hf_col_name = .ok hfv ∧
      df2.getCol a.lf_col_name = .ok (if a.add_constant_bias_to_make_lf ≠ 0 then
        lfv.map (fun x => x + a.add_constant_bias_to_make_lf) else lfv) := by
  unfold stepConstBias
  by_cases hc : a.add_constant_bias_to_make_lf ≠ 0
  · rw [if_pos hc, hlf]
    refine ⟨_, rfl, ?_, ?_⟩
    · rw [getCol_setCol_ne _ _ _ _ (Ne.symm hcols), hhf]
    · rw [getCol_setCol_same, if_pos hc]
  · rw [if_neg hc]
    exact ⟨df, rfl, hhf, by rw [hlf, if_neg hc]⟩

theorem stepGaussNoise_spec (a : Args) (gaussVals : List ℚ) (df : DataFrame)
    (lfv hfv : List ℚ) (hcols : a.hf_col_name ≠ a.lf_col_name)
    (hlf : df.getCol a.lf_col_name = .ok lfv)
    (hhf : df.getCol a.hf_col_name = .ok hfv) :
    ∃ df2, stepGaussNoise a gaussVals df = .ok df2 ∧
      df2.getCol a.hf_col_name = .ok hfv ∧
      df2.getCol a.lf_col_name = .ok (if a.add_gauss_noise_to_make_lf > 0 then
        addVec lfv gaussVals else lfv) := by
  unfold stepGaussNoise
  by_cases hg : a.add_gauss_noise_to_make_lf > 0
  · rw [if_pos hg, hlf]
    refine ⟨_, rfl, ?_, ?_⟩
    · rw [getCol_setCol_ne _ _ _ _ (Ne.symm hcols), hhf]
    · rw [getCol_setCol_same, if_pos hg]
  · rw [if_neg hg]
    exact ⟨df, rfl, hhf, by rw [hlf, if_neg hg]⟩

theorem stepDescriptorBias_spec (a : Args) (descVals : List ℚ) (df : DataFrame)
    (lfv hfv : List ℚ) (hcols : a.hf_col_name ≠ a.lf_col_name)
    (hlf : df.getCol a.lf_col_name = .ok lfv)
    (hhf : df.getCol a.hf_col_name = .ok hfv) :
    ∃ df2, stepDescriptorBias a descVals df = .ok df2 ∧
      df2.getCol a.hf_col_name = .ok hfv ∧
      df2.getCol a.lf_col_name = .ok (if a.add_descriptor_bias_to_make_lf ≠ 0 then
        addVec lfv descVals else lfv) := by
  unfold stepDescriptorBias
  by_cases hd : a.add_descriptor_bias_to_make_lf ≠ 0
  · rw [if_pos hd, hlf]
    refine ⟨_, rfl, ?_, ?_⟩
    · rw [getCol_setCol_ne _ _ _ _ (Ne.symm hcols), hhf]
    · rw [getCol_setCol_same, if_pos hd]
  · rw [if_neg hd]
    exact ⟨df, rfl, hhf, by rw [hlf, if_neg hd]⟩

theorem getD_addVec (xs ys : List ℚ) (i : Nat) (h1 : i < xs.length)
    (h2 : i < ys.length) :
    (addVec xs ys).getD i 0 = xs.getD i 0 + ys.getD i 0 := by
  unfold addVec
  rw [List.getD_eq_getElem _ _ (by simp [List.length_zipWith]; omega),
      List.getD_eq_getElem _ _ h1, List.getD_eq_getElem _ _ h2]
  rw [List.getElem_zipWith]

theorem getD_mapQ (l : List ℚ) (f : ℚ → ℚ) (i : Nat) (h : i < l.length) :
    (l.map f).getD i 0 = f (l.getD i 0) := by
  rw [List.getD_eq_getElem _ _ (by simpa), List.getD_eq_getElem _ _ h,
    List.getElem_map]

theorem length_addVec (xs ys : List ℚ) :
    (addVec xs ys).length = min xs.length ys.length := by
  simp [addVec]

theorem length_lfSynth (a : Args) (pnCoeffs gaussVals descVals hfv : List ℚ)
    (hg : gaussVals.length = hfv.length) (hd : descVals.length = hfv.length) :
    (lfSynth a pnCoeffs gaussVals descVals hfv).length = hfv.length := by
  unfold lfSynth lfAfterDesc lfAfterGauss lfAfterConst lfAfterPn
  split_ifs <;> simp [length_addVec, hg, hd]

theorem getD_lfAfterPn (a : Args) (pnCoeffs hfv : List ℚ) (i : Nat)
    (hi : i < hfv.length) :
    (lfAfterPn a pnCoeffs hfv).getD i 0 = hfv.getD i 0 +
      (if a.add_pn_bias_to_make_lf > 0 then polyval pnCoeffs (hfv.getD i 0)
       else 0) := by
  unfold lfAfterPn
  split_ifs with h
  · rw [getD_addVec _ _ _ hi (by simpa using hi), getD_mapQ _ _ _ hi]
  · simp

theorem getD_lfAfterConst (a : Args) (l : List ℚ) (i : Nat)
    (hi : i < l.length) :
    (lfAfterConst a l).getD i 0 = l.getD i 0 +
      (if a.add_constant_bias_to_make_lf ≠ 0 then a.add_constant_bias_to_make_lf
       else 0) := by
  unfold lfAfterConst
  split_ifs with h
  · rw [getD_mapQ _ _ _ hi]
  · simp

theorem getD_lfAfterGauss (a : Args) (gaussVals l : List ℚ) (i : Nat)
    (hi : i < l.length) (hig : i < gaussVals.length) :
    (lfAfterGauss a gaussVals l).getD i 0 = l.getD i 0 +
      (if a.add_gauss_noise_to_make_lf > 0 then gaussVals.getD i 0 else 0) := by
  unfold lfAfterGauss
  split_ifs with h
  · rw [getD_addVec _ _ _ hi hig]
  · simp

theorem getD_lfAfterDesc (a : Args) (descVals l : List ℚ) (i : Nat)
    (hi : i < l.length) (hid : i < descVals.length) :
    (lfAfterDesc a descVals l).getD i 0 = l.getD i 0 +
      (if a.add_descriptor_bias_to_make_lf ≠ 0 then descVals.getD i 0
       else 0) := by
  unfold lfAfterDesc
  split_ifs with h
  · rw [getD_addVec _ _ _ hi hid]
  · simp

theorem getD_lfSynth (a : Args) (pnCoeffs gaussVals descVals hfv : List ℚ)
    (hg : gaussVals.length = hfv.length) (hd : descVals.length = hfv.length)
    (i : Nat) (hi : i < hfv.length) :
    (lfSynth a pnCoeffs gaussVals descVals hfv).getD i 0 =
      hfv.getD i 0 +
      (if a.add_pn_bias_to_make_lf > 0 then polyval pnCoeffs (hfv.getD i 0)
       else 0) +
      (if a.add_constant_bias_to_make_lf ≠ 0 then a.add_constant_bias_to_make_lf
       else 0) +
      (if a.add_gauss_noise_to_make_lf > 0 then gaussVals.getD i 0 else 0) +
      (if a.add_descriptor_bias_to_make_lf ≠ 0 then descVals.getD i 0
       else 0) := by
  have l1 : (lfAfterPn a pnCoeffs hfv).length = hfv.length := by
    unfold lfAfterPn; split_ifs <;> simp [length_addVec]
  have l2 : (lfAfterConst a (lfAfterPn a pnCoeffs hfv)).length = hfv.length := by
    unfold lfAfterConst; split_ifs <;> simp [l1]
  have l3 : (lfAfterGauss a gaussVals
      (lfAfterConst a (lfAfterPn a pnCoeffs hfv))).length = hfv.length := by
    unfold lfAfterGauss; split_ifs <;> simp [length_addVec, l2, hg]
  unfold lfSynth
  rw [getD_lfAfterDesc a _ _ i (by omega) (by omega),
    getD_lfAfterGauss a _ _ i (by omega) (by omega),
    getD_lfAfterConst a _ i (by omega),
    getD_lfAfterPn a _ _ i hi]

theorem foldl_collateStep (gs : List MolGraph) (s : CollateState) :
    gs.foldl collateStep s =
      { n_atoms := s.n_atoms + sumAtoms gs
        n_bonds := s.n_bonds + sumBonds gs
        a_scope := s.a_scope ++ scopeList s.n_atoms (gs.map MolGraph.n_atoms)
        b_scope := s.b_scope ++ scopeList s.n_bonds (gs.map MolGraph.n_bonds)
        X_vs := s.X_vs ++ (gs.map MolGraph.X_v).flatten
        X_es := s.X_es ++ (gs.map MolGraph.X_e).flatten
        a2b := s.a2b ++ batchA2b s.n_bonds gs
        b2a := s.b2a ++ batchB2a s.n_atoms gs
        b2revb := s.b2revb ++ batchB2revb s.n_bonds gs } := by
  induction gs generalizing s with
  | nil =>
    simp [sumAtoms, sumBonds, scopeList, batchA2b, batchB2a, batchB2revb]
  | cons g gs ih =>
    rw [List.foldl_cons, ih]
    simp only [collateStep, sumAtoms, sumBonds, scopeList, batchA2b, batchB2a,
      batchB2revb, List.map_cons, List.sum_cons, List.flatten_cons,
      List.append_assoc, List.singleton_append, CollateState.mk.injEq]
    refine ⟨by omega, by omega, ?_, ?_, ?_, ?_, ?_, ?_, ?_⟩ <;> trivial

theorem length_batchA2b (nb : Nat) (gs : List MolGraph) :
    (batchA2b nb gs).length = sumAtoms gs := by
  induction gs generalizing nb with
  | nil => rfl
  | cons g gs ih => simp [batchA2b, sumAtoms, ih]

theorem length_batchB2a (na : Nat) (gs : List MolGraph) :
    (batchB2a na gs).length = sumBonds gs := by
  induction gs generalizing na with
  | nil => rfl
  | cons g gs ih => simp [batchB2a, sumBonds, ih]

theorem length_batchB2revb (nb : Nat) (gs : List MolGraph) :
    (batchB2revb nb gs).length = sumBonds gs := by
  induction gs generalizing nb with
  | nil => rfl
  | cons g gs ih => simp [batchB2revb, sumBonds, ih]

theorem length_scopeList (cs : List Nat) (st : Nat) :
    (scopeList st cs).length = cs.length := by
  induction cs generalizing st with
  | nil => rfl
  | cons c cs ih => simp [scopeList, ih]

theorem sumAtomsBefore_zero (gs : List MolGraph) : sumAtomsBefore gs 0 = 0 := by
  simp [sumAtomsBefore, sumAtoms]

theorem sumBondsBefore_zero (gs : List MolGraph) : sumBondsBefore gs 0 = 0 := by
  simp [sumBondsBefore, sumBonds]

theorem sumAtomsBefore_cons_succ (g : MolGraph) (gs : List MolGraph) (i : Nat) :
    sumAtomsBefore (g :: gs) (i + 1) = g.n_atoms + sumAtomsBefore gs i := by
  simp [sumAtomsBefore, sumAtoms, List.take_succ_cons]

theorem sumBondsBefore_cons_succ (g : MolGraph) (gs : List MolGraph) (i : Nat) :
    sumBondsBefore (g :: gs) (i + 1) = g.n_bonds + sumBondsBefore gs i := by
  simp [sumBondsBefore, sumBonds, List.take_succ_cons]

theorem getD_batchA2b (gs : List MolGraph) (nb i a : Nat)
    (hi : i < gs.length) (ha : a < (gs.getD i default).n_atoms) :
    (batchA2b nb gs).getD (sumAtomsBefore gs i + a) [] =
      ((gs.getD i default).a2b a).map
        (fun b => b + (nb + sumBondsBefore gs i)) := by
  induction gs generalizing nb i with
  | nil => exact absurd hi (by simp)
  | cons g gs ih =>
    cases i with
    | zero =>
      simp only [List.getD_cons_zero] at ha ⊢
      rw [sumAtomsBefore_zero, sumBondsBefore_zero, Nat.zero_add, Nat.add_zero]
      have hlen : a < ((List.range g.n_atoms).map
          (fun a => (g.a2b a).map (fun b => b + nb))).length := by simpa
      rw [batchA2b, List.getD_append _ _ _ _ hlen,
        List.getD_eq_getElem _ _ hlen, List.getElem_map, List.getElem_range]
    | succ i =>
      simp only [List.getD_cons_succ] at ha ⊢
      have hi2 : i < gs.length := by simpa using hi
      rw [sumAtomsBefore_cons_succ, sumBondsBefore_cons_succ, batchA2b]
      have hge : ((List.range g.n_atoms).map
          (fun a => (g.a2b a).map (fun b => b + nb))).length ≤
          g.n_atoms + sumAtomsBefore gs i + a := by simp; omega
      rw [List.getD_append_right _ _ _ _ hge]
      have hsub : g.n_atoms + sumAtomsBefore gs i + a -
          ((List.range g.n_atoms).map
            (fun a => (g.a2b a).map (fun b => b + nb))).length =
          sumAtomsBefore gs i + a := by simp; omega
      rw [hsub, ih (nb + g.n_bonds) i hi2 ha]
      have hadd : nb + g.n_bonds + sumBondsBefore gs i =
          nb + (g.n_bonds + sumBondsBefore gs i) := by omega
      simp [hadd]

theorem getD_batchB2a (gs : List MolGraph) (na i b : Nat)
    (hi : i < gs.length) (hb : b < (gs.getD i default).n_bonds) :
    (batchB2a na gs).getD (sumBondsBefore gs i + b) 0 =
      na + sumAtomsBefore gs i + (gs.getD i default).b2a b := by
  induction gs generalizing na i with
  | nil => exact absurd hi (by simp)
  | cons g gs ih =>
    cases i with
    | zero =>
      simp only [List.getD_cons_zero] at hb ⊢
      rw [sumAtomsBefore_zero, sumBondsBefore_zero, Nat.zero_add, Nat.add_zero]
      have hlen : b < ((List.range g.n_bonds).map
          (fun b => na + g.b2a b)).length := by simpa
      rw [batchB2a, List.getD_append _ _ _ _ hlen,
        List.getD_eq_getElem _ _ hlen, List.getElem_map, List.getElem_range]
    | succ i =>
      simp only [List.getD_cons_succ] at hb ⊢
      have hi2 : i < gs.length := by simpa using hi
      rw [sumAtomsBefore_cons_succ, sumBondsBefore_cons_succ, batchB2a]
      have hge : ((List.range g.n_bonds).map
          (fun b => na + g.b2a b)).length ≤
          g.n_bonds + sumBondsBefore gs i + b := by simp; omega
      rw [List.getD_append_right _ _ _ _ hge]
      have hsub : g.n_bonds + sumBondsBefore gs i + b -
          ((List.range g.n_bonds).map (fun b => na + g.b2a b)).length =
          sumBondsBefore gs i + b := by simp; omega
      rw [hsub, ih (na + g.n_atoms) i hi2 hb]
      omega

theorem getD_batchB2revb (gs : List MolGraph) (nb i b : Nat)
    (hi : i < gs.length) (hb : b < (gs.getD i default).n_bonds) :
    (batchB2revb nb gs).getD (sumBondsBefore gs i + b) 0 =
      nb + sumBondsBefore gs i + (gs.getD i default).b2revb b := by
  induction gs generalizing nb i with
  | nil => exact absurd hi (by simp)
  | cons g gs ih =>
    cases i with
    | zero =>
      simp only [List.getD_cons_zero] at hb ⊢
      rw [sumBondsBefore_zero, Nat.zero_add, Nat.add_zero]
      have hlen : b < ((List.range g.n_bonds).map
          (fun b => nb + g.b2revb b)).length := by simpa
      rw [batchB2revb, List.getD_append _ _ _ _ hlen,
        List.getD_eq_getElem _ _ hlen, List.getElem_map, List.getElem_range]
    | succ i =>
      simp only [List.getD_cons_succ] at hb ⊢
      have hi2 : i < gs.length := by simpa using hi
      rw [sumBondsBefore_cons_succ, batchB2revb]
      have hge : ((List.range g.n_bonds).map
          (fun b => nb + g.b2revb b)).length ≤
          g.n_bonds + sumBondsBefore gs i + b := by simp; omega
      rw [List.getD_append_right _ _ _ _ hge]
      have hsub : g.n_bonds + sumBondsBefore gs i + b -
          ((List.range g.n_bonds).map (fun b => nb + g.b2revb b)).length =
          sumBondsBefore gs i + b := by simp; omega
      rw [hsub, ih (nb + g.n_bonds) i hi2 hb]
      omega

theorem getD_scopeList (cs : List Nat) (st i : Nat) (hi : i < cs.length) :
    (scopeList st cs).getD i (0, 0) = (st + (cs.take i).sum, cs.getD i 0) := by
  induction cs generalizing st i with
  | nil => exact absurd hi (by simp)
  | cons c cs ih =>
    cases i with
    | zero => simp [scopeList]
    | succ i =>
      have hi2 : i < cs.length := by simpa using hi
      rw [scopeList, List.getD_cons_succ, ih (st + c) i hi2,
        List.take_succ_cons, List.sum_cons, List.getD_cons_succ,
        Nat.add_assoc]

theorem maxLen_append (l1 l2 : List (List Nat)) :
    maxLen (l1 ++ l2) = max (maxLen l1) (maxLen l2) := by
  induction l1 with
  | nil => simp [maxLen]
  | cons x l1 ih =>
    simp only [maxLen, List.cons_append, List.foldr_cons] at ih ⊢
    rw [ih]
    omega

theorem maxLen_batchA2b (nb : Nat) (gs : List MolGraph) :
    maxLen (batchA2b nb gs) = maxNbrLen gs := by
  induction gs generalizing nb with
  | nil => rfl
  | cons g gs ih =>
    rw [batchA2b, maxLen_append, ih]
    have hseg : maxLen ((List.range g.n_atoms).map
        (fun a => (g.a2b a).map (fun b => b + nb))) =
        ((List.range g.n_atoms).map (fun a => (g.a2b a).length)).foldr max 0 := by
      simp [maxLen, List.foldr_map]
    rw [hseg]
    simp [maxNbrLen]

theorem length_le_maxLen (ls : List (List Nat)) (l : List Nat) (h : l ∈ ls) :
    l.length ≤ maxLen ls := by
  induction ls with
  | nil => exact absurd h (List.not_mem_nil l)
  | cons x ls ih =>
    rcases List.mem_cons.mp h with rfl | h
    · simp [maxLen]
    · have := ih h
      simp only [maxLen, List.foldr_cons] at this ⊢
      omega

theorem range_map_getD (l : List (List Nat)) (f : List Nat → List Nat) :
    (List.range l.length).map (fun a => f (l.getD a [])) = l.map f := by
  apply List.ext_getElem
  · simp
  · intro i h1 h2
    rw [List.getElem_map, List.getElem_map, List.getElem_range,
      List.getD_eq_getElem]

theorem max_one_maxLen_pad (gs : List MolGraph) :
    max 1 (maxLen ([] :: batchA2b 1 gs)) = max 1 (maxNbrLen gs) := by
  have h : ([] :: batchA2b 1 gs) = [([] : List Nat)] ++ batchA2b 1 gs := rfl
  rw [h, maxLen_append, maxLen_batchA2b]
  have h0 : maxLen [([] : List Nat)] = 0 := rfl
  rw [h0]
  omega

/-- Closed form of `collate_graphs`: every output array is the zero-padding
slot followed by the per-graph segments at their cumulative offsets, `a2b`
rows padded to `max(1, longest neighbor list)`. -/
theorem collate_graphs_eq (gs : List MolGraph) :
    collate_graphs gs =
      { X_v := List.replicate gs.headI.X_v.length 0 ::
          (gs.map MolGraph.X_v).flatten,
        X_e := List.replicate gs.headI.X_e.length 0 ::
          (gs.map MolGraph.X_e).flatten,
        a2b := ([] :: batchA2b 1 gs).map (padRow (max 1 (maxNbrLen gs))),
        b2a := 0 :: batchB2a 1 gs,
        b2revb := 0 :: batchB2revb 1 gs,
        a_scope := scopeList 1 (gs.map MolGraph.n_atoms),
        b_scope := scopeList 1 (gs.map MolGraph.n_bonds),
        a2a := (([] :: batchA2b 1 gs).map
            (padRow (max 1 (maxNbrLen gs)))).map
          (fun row => row.map
            (fun b => (0 :: batchB2a 1 gs).getD b 0)) } := by
  have hpad : ∀ w : Nat,
      (List.range (1 + sumAtoms gs)).map
        (fun a => padRow w (([] :: batchA2b 1 gs).getD a [])) =
        ([] :: batchA2b 1 gs).map (padRow w) := by
    intro w
    have hlen : 1 + sumAtoms gs = ([] :: batchA2b 1 gs).length := by
      simp [length_batchA2b]
      omega
    rw [hlen]
    exact range_map_getD ([] :: batchA2b 1 gs) (padRow w)
  simp only [collate_graphs, foldl_collateStep, collateInit,
    List.singleton_append, BatchMolGraph.mk.injEq]
  rw [max_one_maxLen_pad, hpad]
  refine ⟨?_, ?_, ?_, ?_, ?_, ?_, ?_, ?_⟩ <;> trivial

theorem sumAtomsBefore_succ (gs : List MolGraph) (i : Nat)
    (hi : i < gs.length) :
    sumAtomsBefore gs (i + 1) =
      sumAtomsBefore gs i + (gs.getD i default).n_atoms := by
  induction gs generalizing i with
  | nil => exact absurd hi (by simp)
  | cons g gs ih =>
    cases i with
    | zero =>
      rw [sumAtomsBefore_cons_succ, sumAtomsBefore_zero, sumAtomsBefore_zero,
        List.getD_cons_zero]
      omega
    | succ i =>
      rw [sumAtomsBefore_cons_succ, sumAtomsBefore_cons_succ,
        ih i (by simpa using hi), List.getD_cons_succ]
      omega

theorem sumBondsBefore_succ (gs : List MolGraph) (i : Nat)
    (hi : i < gs.length) :
    sumBondsBefore gs (i + 1) =
      sumBondsBefore gs i + (gs.getD i default).n_bonds := by
  induction gs generalizing i with
  | nil => exact absurd hi (by simp)
  | cons g gs ih =>
    cases i with
    | zero =>
      rw [sumBondsBefore_cons_succ, sumBondsBefore_zero, sumBondsBefore_zero,
        List.getD_cons_zero]
      omega
    | succ i =>
      rw [sumBondsBefore_cons_succ, sumBondsBefore_cons_succ,
        ih i (by simpa using hi), List.getD_cons_succ]
      omega

theorem sumAtomsBefore_add_lt (gs : List MolGraph) (i a : Nat)
    (hi : i < gs.length) (ha : a < (gs.getD i default).n_atoms) :
    sumAtomsBefore gs i + a < sumAtoms gs := by
  induction gs generalizing i with
  | nil => exact absurd hi (by simp)
  | cons g gs ih =>
    cases i with
    | zero =>
      simp only [List.getD_cons_zero] at ha
      rw [sumAtomsBefore_zero]
      simp only [sumAtoms, List.map_cons, List.sum_cons]
      have : sumAtoms gs = (gs.map MolGraph.n_atoms).sum := rfl
      omega
    | succ i =>
      simp only [List.getD_cons_succ] at ha
      rw [sumAtomsBefore_cons_succ]
      have h2 := ih i (by simpa using hi) ha
      simp only [sumAtoms, List.map_cons, List.sum_cons] at h2 ⊢
      omega

theorem sumBondsBefore_add_lt (gs : List MolGraph) (i b : Nat)
    (hi : i < gs.length) (hb : b < (gs.getD i default).n_bonds) :
    sumBondsBefore gs i + b < sumBonds gs := by
  induction gs generalizing i with
  | nil => exact absurd hi (by simp)
  | cons g gs ih =>
    cases i with
    | zero =>
      simp only [List.getD_cons_zero] at hb
      rw [sumBondsBefore_zero]
      simp only [sumBonds, List.map_cons, List.sum_cons]
      omega
    | succ i =>
      simp only [List.getD_cons_succ] at hb
      rw [sumBondsBefore_cons_succ]
      have h2 := ih i (by simpa using hi) hb
      simp only [sumBonds, List.map_cons, List.sum_cons] at h2 ⊢
      omega

theorem take_map_natoms_sum (gs : List MolGraph) (i : Nat) :
    ((gs.map MolGraph.n_atoms).take i).sum = sumAtomsBefore gs i := by
  simp [sumAtomsBefore, sumAtoms, List.map_take]

theorem take_map_nbonds_sum (gs : List MolGraph) (i : Nat) :
    ((gs.map MolGraph.n_bonds).take i).sum = sumBondsBefore gs i := by
  simp [sumBondsBefore, sumBonds, List.map_take]

theorem getD_map_natoms (gs : List MolGraph) (i : Nat) (hi : i < gs.length) :
    (gs.map MolGraph.n_atoms).getD i 0 = (gs.getD i default).n_atoms := by
  rw [List.getD_eq_getElem _ _ (by simpa using hi), List.getElem_map,
    List.getD_eq_getElem _ _ hi]

theorem getD_map_nbonds (gs : List MolGraph) (i : Nat) (hi : i < gs.length) :
    (gs.map MolGraph.n_bonds).getD i 0 = (gs.getD i default).n_bonds := by
  rw [List.getD_eq_getElem _ _ (by simpa using hi), List.getElem_map,
    List.getD_eq_getElem _ _ hi]

theorem mem_sampleByPos_index (df : DataFrame) (sel : List Nat)
    (hsel : ∀ i ∈ sel, i < df.index.length) (x : String)
    (hx : x ∈ (df.sampleByPos sel).index) : x ∈ df.index := by
  simp only [DataFrame.sampleByPos, List.mem_map] at hx
  obtain ⟨i, hi, rfl⟩ := hx
  rw [List.getD_eq_getElem _ _ (hsel i hi)]
  exact List.getElem_mem _

theorem mem_dropIndex (df : DataFrame) (labels : List String) (x : String) :
    x ∈ (df.dropIndex labels).index ↔ x ∈ df.index ∧ x ∉ labels := by
  unfold DataFrame.dropIndex
  simp only [List.mem_map, List.mem_filter, List.mem_range,
    decide_eq_true_eq]
  constructor
  · rintro ⟨i, ⟨hir, hnotin⟩, rfl⟩
    rw [List.getD_eq_getElem _ _ hir] at hnotin ⊢
    exact ⟨List.getElem_mem _, hnotin⟩
  · rintro ⟨hx, hnot⟩
    obtain ⟨i, hi, rfl⟩ := List.getElem_of_mem hx
    exact ⟨i, ⟨hi, by rw [List.getD_eq_getElem _ _ hi]; exact hnot⟩,
      by rw [List.getD_eq_getElem _ _ hi]⟩

/-- C3: in a multi-fidelity run without `lf_superset_of_hf`, the HF dataframe
is a sample of fraction `1 / (lf_hf_size_ratio + 1)` of the full dataset and
the LF dataframe is exactly the remaining rows — their label sets are
disjoint and their union is the full label set; with `lf_superset_of_hf`, the
LF dataframe is the full dataset and the HF dataframe a sample of fraction
`1 / lf_hf_size_ratio` of it, so the HF labels are a subset of the LF
labels. -/
theorem mfDataframes_spec (sup : Bool) (df : DataFrame) (sel : List Nat)
    (ratio : Int) (hsel : ∀ i ∈ sel, i < df.index.length)
    (hlen : sel.length = pandasSampleSize df.index.length
      (if sup then 1 / (ratio : ℚ) else 1 / ((ratio : ℚ) + 1))) :
    (∀ x ∈ ((mfDataframes sup df sel).1).index, x ∈ df.index) ∧
    (sup = false →
      (∀ x, x ∈ ((mfDataframes sup df sel).2).index ↔
        x ∈ df.index ∧ x ∉ ((mfDataframes sup df sel).1).index) ∧
      (∀ x, x ∈ df.index ↔ x ∈ ((mfDataframes sup df sel).1).index ∨
        x ∈ ((mfDataframes sup df sel).2).index) ∧
      (∀ x, ¬(x ∈ ((mfDataframes sup df sel).1).index ∧
        x ∈ ((mfDataframes sup df sel).2).index))) ∧
    (sup = true →
      (mfDataframes sup df sel).2 = df ∧
      ∀ x ∈ ((mfDataframes sup df sel).1).index,
        x ∈ ((mfDataframes sup df sel).2).index) := by
  have hsub : ∀ x ∈ (df.sampleByPos sel).index, x ∈ df.index :=
    fun x hx => mem_sampleByPos_index df sel hsel x hx
  cases sup
  · have hm : mfDataframes false df sel =
        (df.sampleByPos sel, df.dropIndex (df.sampleByPos sel).index) := rfl
    rw [hm]
    refine ⟨hsub, fun _ => ⟨fun x => mem_dropIndex df _ x, ?_, ?_⟩,
      fun h => absurd h (by decide)⟩
    · intro x
      constructor
      · intro hx
        by_cases hmem : x ∈ (df.sampleByPos sel).index
        · exact Or.inl hmem
        · exact Or.inr ((mem_dropIndex df _ x).mpr ⟨hx, hmem⟩)
      · rintro (hx | hx)
        · exact hsub x hx
        · exact ((mem_dropIndex df _ x).mp hx).1
    · rintro x ⟨hx1, hx2⟩
      exact ((mem_dropIndex df _ x).mp hx2).2 hx1
  · have hm : mfDataframes true df sel = (df.sampleByPos sel, df) := rfl
    rw [hm]
    exact ⟨hsub, fun h => absurd h (by decide),
      fun _ => ⟨rfl, fun x hx => hsub x hx⟩⟩

/-- Witness for C3 at a concrete dataframe and drawn positions. -/
theorem mfDataframes_spec_witness :
    (∀ x ∈ ((mfDataframes false dfDemo [0]).1).index, x ∈ dfDemo.index) ∧
    (false = false →
      (∀ x, x ∈ ((mfDataframes false dfDemo [0]).2).index ↔
        x ∈ dfDemo.index ∧ x ∉ ((mfDataframes false dfDemo [0]).1).index) ∧
      (∀ x, x ∈ dfDemo.index ↔ x ∈ ((mfDataframes false dfDemo [0]).1).index ∨
        x ∈ ((mfDataframes false dfDemo [0]).2).index) ∧
      (∀ x, ¬(x ∈ ((mfDataframes false dfDemo [0]).1).index ∧
        x ∈ ((mfDataframes false dfDemo [0]).2).index))) ∧
    (false = true →
      (mfDataframes false dfDemo [0]).2 = dfDemo ∧
      ∀ x ∈ ((mfDataframes false dfDemo [0]).1).index,
        x ∈ ((mfDataframes false dfDemo [0]).2).index) :=
  mfDataframes_spec false dfDemo [0] 1 (by decide)
    (by norm_num [pandasSampleSize, round_eq, dfDemo])

theorem mem_mkDatapoints (idx : List String) (ts : List (List (Option ℚ)))
    (dp : MoleculeDatapoint) (h : dp ∈ mkDatapoints idx ts) : dp.smi ∈ idx := by
  unfold mkDatapoints at h
  obtain ⟨i, hlen, hi⟩ := List.getElem_of_mem h
  have hii : i < idx.length := by
    rw [List.length_zipWith] at hlen; omega
  rw [List.getElem_zipWith] at hi
  rw [← hi]
  exact List.getElem_mem _

theorem trainTestIndex_subset (a : Args) (df : DataFrame) (sel : List Nat)
    (split : DataFrame → List String × List String)
    (hsel : ∀ i ∈ sel, i < df.index.length)
    (hsplit : ∀ d : DataFrame, (∀ x ∈ (split d).1, x ∈ d.index) ∧
      (∀ x ∈ (split d).2, x ∈ d.index)) :
    (∀ x ∈ (trainTestIndex a df sel split).1, x ∈ df.index) ∧
    (∀ x ∈ (trainTestIndex a df sel split).2, x ∈ df.index) := by
  unfold trainTestIndex
  by_cases hmt : a.model_type = "single_fidelity"
  · rw [if_pos hmt]
    exact hsplit df
  · rw [if_neg hmt]
    have hhf : ∀ x ∈ ((mfDataframes a.lf_superset_of_hf df sel).1).index,
        x ∈ df.index := by
      cases hsup : a.lf_superset_of_hf <;>
        exact fun x hx => mem_sampleByPos_index df sel hsel x hx
    have hlf : ∀ x ∈ ((mfDataframes a.lf_superset_of_hf df sel).2).index,
        x ∈ df.index := by
      cases hsup : a.lf_superset_of_hf
      · exact fun x hx => ((mem_dropIndex df _ x).mp hx).1
      · exact fun x hx => hx
    constructor
    · intro x hx
      rcases List.mem_append.mp hx with hx | hx
      · exact hlf x ((hsplit ((mfDataframes a.lf_superset_of_hf df
          sel).2.dropCol a.hf_col_name)).1 x hx)
      · exact hhf x ((hsplit ((mfDataframes a.lf_superset_of_hf df
          sel).1.dropCol a.lf_col_name)).1 x hx)
    · intro x hx
      rcases List.mem_append.mp hx with hx | hx
      · exact hlf x ((hsplit ((mfDataframes a.lf_superset_of_hf df
          sel).2.dropCol a.hf_col_name)).2 x hx)
      · exact hhf x ((hsplit ((mfDataframes a.lf_superset_of_hf df
          sel).1.dropCol a.lf_col_name)).2 x hx)

/-- C9: the input CSV is loaded with the smiles column as the dataframe
index, and every train and test datapoint is constructed with a SMILES
string drawn from that index — SMILES labels key the dataset through
splitting and datapoint construction. Modelled from the spec:
`split_by_prop_dict` (module `splitfunctions` is not in the provided
sources) builds train/test splits, so `split` ranges over functions whose
output indices are labels of their input frame. -/
theorem smiles_primary_key (smilesCol : List String)
    (otherCols : List (String × List ℚ)) (a : Args) (sel : List Nat)
    (split : DataFrame → List String × List String)
    (trainT testT : List (List (Option ℚ)))
    (hsel : ∀ i ∈ sel, i < smilesCol.length)
    (hsplit : ∀ d : DataFrame, (∀ x ∈ (split d).1, x ∈ d.index) ∧
      (∀ x ∈ (split d).2, x ∈ d.index)) :
    (readCsv smilesCol otherCols).index = smilesCol ∧
    (∀ dp ∈ mkDatapoints
        (trainTestIndex a (readCsv smilesCol otherCols) sel split).1 trainT,
      dp.smi ∈ smilesCol) ∧
    (∀ dp ∈ mkDatapoints
        (trainTestIndex a (readCsv smilesCol otherCols) sel split).2 testT,
      dp.smi ∈ smilesCol) := by
  obtain ⟨htr, hte⟩ := trainTestIndex_subset a (readCsv smilesCol otherCols)
    sel split hsel hsplit
  exact ⟨rfl,
    fun dp hdp => htr dp.smi (mem_mkDatapoints _ _ dp hdp),
    fun dp hdp => hte dp.smi (mem_mkDatapoints _ _ dp hdp)⟩

/-- Witness for C9 at a concrete CSV, split function and targets. -/
theorem smiles_primary_key_witness :
    (readCsv ["C", "CC"] [("h298", [1, 2])]).index = ["C", "CC"] ∧
    (∀ dp ∈ mkDatapoints
        (trainTestIndex argsSfConstDemo (readCsv ["C", "CC"] [("h298", [1, 2])])
          [0] (fun d => (d.index, d.index))).1 [[some 1], [some 2]],
      dp.smi ∈ ["C", "CC"]) ∧
    (∀ dp ∈ mkDatapoints
        (trainTestIndex argsSfConstDemo (readCsv ["C", "CC"] [("h298", [1, 2])])
          [0] (fun d => (d.index, d.index))).2 [[some 1], [some 2]],
      dp.smi ∈ ["C", "CC"]) :=
  smiles_primary_key ["C", "CC"] [("h298", [1, 2])] argsSfConstDemo [0]
    (fun d => (d.index, d.index)) [[some 1], [some 2]] [[some 1], [some 2]]
    (by decide) (fun d => ⟨fun x hx => hx, fun x hx => hx⟩)

theorem listGetQ_ok (l : List ℚ) (i : Nat) (h : i < l.length) :
    listGetQ l i = .ok (l.getD i 0) := by
  unfold listGetQ
  rw [dif_pos h, List.getD_eq_getElem _ _ h]
  rfl

theorem listGetOQ_ok (l : List (Option ℚ)) (i : Nat) (h : i < l.length) :
    listGetOQ l i = .ok (l.getD i none) := by
  unfold listGetOQ
  rw [dif_pos h, List.getD_eq_getElem _ _ h]
  rfl

theorem listGetOQ_oob (l : List (Option ℚ)) (i : Nat) (h : l.length ≤ i) :
    listGetOQ l i = .error .indexError := by
  unfold listGetOQ
  rw [dif_neg (by omega)]

theorem evalRowLf_ok (t : List (Option ℚ)) (p : List ℚ)
    (ht : 0 < t.length) (hp : 0 < p.length) :
    evalRowLf t p =
      .ok ((t.getD 0 none).map (fun v => (v, p.getD 0 0))) := by
  unfold evalRowLf
  rw [listGetOQ_ok t 0 ht]
  cases h : t.getD 0 none with
  | none => rfl
  | some v =>
    show (do
      let p0 ← listGetQ p 0
      pure (some (v, p0)) : Except PyError (Option (ℚ × ℚ))) = _
    rw [listGetQ_ok p 0 hp]
    rfl

theorem evalRowHf_ok (t : List (Option ℚ)) (p : List ℚ)
    (ht : 1 < t.length) (hp : 1 < p.length) :
    evalRowHf t p =
      .ok ((t.getD 1 none).map (fun v => (v, p.getD 1 0))) := by
  unfold evalRowHf
  rw [listGetOQ_ok t 1 ht]
  cases h : t.getD 1 none with
  | none => rfl
  | some v =>
    show (do
      let p1 ← listGetQ p 1
      pure (some (v, p1)) : Except PyError (Option (ℚ × ℚ))) = _
    rw [listGetQ_ok p 1 hp]
    rfl

theorem evalRowHf_one_col (t : List (Option ℚ)) (p : List ℚ)
    (ht : t.length = 1) : evalRowHf t p = .error .indexError := by
  unfold evalRowHf
  rw [listGetOQ_oob t 1 (by omega)]
  rfl

/-- On two-column target and prediction rows, the collection loop succeeds
and returns exactly the rows whose LF (index 0) resp. HF (index 1) target is
not NaN. -/
theorem collectLfHf_two_col (l : List (List (Option ℚ) × List ℚ))
    (h : ∀ tp ∈ l, 2 ≤ tp.1.length ∧ 2 ≤ tp.2.length) :
    collectLfHf l = .ok
      (((l.filter (fun tp => (tp.1.getD 0 none).isSome)).map
          (fun tp => (tp.1.getD 0 none).getD 0),
        (l.filter (fun tp => (tp.1.getD 0 none).isSome)).map
          (fun tp => tp.2.getD 0 0)),
       ((l.filter (fun tp => (tp.1.getD 1 none).isSome)).map
          (fun tp => (tp.1.getD 1 none).getD 0),
        (l.filter (fun tp => (tp.1.getD 1 none).isSome)).map
          (fun tp => tp.2.getD 1 0))) := by
  induction l with
  | nil => rfl
  | cons tp rest ih =>
    obtain ⟨t, p⟩ := tp
    obtain ⟨ht, hp⟩ := h (t, p) (List.mem_cons_self _ _)
    have ht2 : 2 ≤ t.length := ht
    have hp2 : 2 ≤ p.length := hp
    have hrest := ih (fun x hx => h x (List.mem_cons_of_mem _ hx))
    simp only [collectLfHf]
    rw [evalRowLf_ok t p (by omega) (by omega),
      evalRowHf_ok t p (by omega) (by omega)]
    cases h0 : t.getD 0 none <;> cases h1 : t.getD 1 none <;>
      simp only [List.getD_eq_getElem?_getD] at h0 h1 <;>
      simp [hrest, List.filter_cons, h0, h1, Except.bind, bind]

/-- On a one-column target row (the `delta_ml` shape of lines 161-162), the
collection loop raises `IndexError` at the `target[1]` access. -/
theorem collectLfHf_one_col (t : List (Option ℚ)) (p : List ℚ)
    (rest : List (List (Option ℚ) × List ℚ)) (ht : t.length = 1) :
    collectLfHf ((t, p) :: rest) = .error .indexError := by
  have hhf := evalRowHf_one_col t p ht
  simp only [collectLfHf]
  rcases hres : evalRowLf t p with e | lf
  · have he : e = PyError.indexError := by
      unfold evalRowLf at hres
      rw [listGetOQ_ok t 0 (by omega)] at hres
      cases hv : t.getD 0 none with
      | none =>
        rw [hv] at hres
        exact absurd hres (fun hh => Except.noConfusion hh)
      | some v =>
        rw [hv] at hres
        unfold listGetQ at hres
        by_cases hp : 0 < p.length
        · rw [dif_pos hp] at hres
          exact absurd hres (fun hh => Except.noConfusion hh)
        · rw [dif_neg hp] at hres
          have h2 : (Except.error PyError.indexError :
              Except PyError (Option (ℚ × ℚ))) = Except.error e := hres
          injection h2 with h3
          exact h3.symm
    subst he
    rfl
  · rw [hhf]
    rfl

/-- Counterexample for C7 as originally stated: a `delta_ml` run passes
validation and reaches the evaluation loop, but its test targets carry only
the HF column (lines 161-162), so the `target[1]` access of line 291 raises
`IndexError` and no `test_metrics.csv` row is produced. -/
theorem testMetricsCsv_deltaMl_counterexample :
    testMetricsCsv "delta_ml" (fun t _ => t.sum) (fun t _ => t.sum)
      (fun t _ => t.sum) [] [] [[some 1]] [[5]] = .error .indexError :=
  rfl

/-- C7 (amended): every `test_metrics.csv` row that is written has the
columns `MAE_hf, RMSE_hf, R2_hf, MAE_lf, RMSE_lf, R2_lf`; a
`single_fidelity` run writes the row with NaN LF cells; a run of any other
model type whose test targets are two-column `(lf, hf)` rows (the
multi-target and multi-fidelity types) writes LF metrics over the test rows
whose LF target is not NaN; a `delta_ml` run, whose test targets carry only
the HF column, raises `IndexError` in the collection loop and writes no
row; and a written row has NaN LF cells exactly when the model type is
`single_fidelity`. -/
theorem testMetricsCsv_spec (model_type : String)
    (mae rmse r2 : List ℚ → List ℚ → ℚ) (sfT sfP : List ℚ)
    (mfT : List (List (Option ℚ))) (mfP : List (List ℚ)) :
    (∀ row, testMetricsCsv model_type mae rmse r2 sfT sfP mfT mfP =
        .ok row → row.map Prod.fst = testMetricsHeader) ∧
    (model_type = "single_fidelity" →
      testMetricsCsv model_type mae rmse r2 sfT sfP mfT mfP =
        .ok [("MAE_hf", some (mae sfT sfP)), ("RMSE_hf", some (rmse sfT sfP)),
             ("R2_hf", some (r2 sfT sfP)), ("MAE_lf", none),
             ("RMSE_lf", none), ("R2_lf", none)]) ∧
    (model_type ≠ "single_fidelity" →
      (∀ tp ∈ List.zip mfT mfP, 2 ≤ tp.1.length ∧ 2 ≤ tp.2.length) →
      testMetricsCsv model_type mae rmse r2 sfT sfP mfT mfP =
        .ok [("MAE_hf", some (mae
              (((List.zip mfT mfP).filter
                  (fun tp => (tp.1.getD 1 none).isSome)).map
                (fun tp => (tp.1.getD 1 none).getD 0))
              (((List.zip mfT mfP).filter
                  (fun tp => (tp.1.getD 1 none).isSome)).map
                (fun tp => tp.2.getD 1 0)))),
            ("RMSE_hf", some (rmse
              (((List.zip mfT mfP).filter
                  (fun tp => (tp.1.getD 1 none).isSome)).map
                (fun tp => (tp.1.getD 1 none).getD 0))
              (((List.zip mfT mfP).filter
                  (fun tp => (tp.1.getD 1 none).isSome)).map
                (fun tp => tp.2.getD 1 0)))),
            ("R2_hf", some (r2
              (((List.zip mfT mfP).filter
                  (fun tp => (tp.1.getD 1 none).isSome)).map
                (fun tp => (tp.1.getD 1 none).getD 0))
              (((List.zip mfT mfP).filter
                  (fun tp => (tp.1.getD 1 none).isSome)).map
                (fun tp => tp.2.getD 1 0)))),
            ("MAE_lf", some (mae
              (((List.zip mfT mfP).filter
                  (fun tp => (tp.1.getD 0 none).isSome)).map
                (fun tp => (tp.1.getD 0 none).getD 0))
              (((List.zip mfT mfP).filter
                  (fun tp => (tp.1.getD 0 none).isSome)).map
                (fun tp => tp.2.getD 0 0)))),
            ("RMSE_lf", some (rmse
              (((List.zip mfT mfP).filter
                  (fun tp => (tp.1.getD 0 none).isSome)).map
                (fun tp => (tp.1.getD 0 none).getD 0))
              (((List.zip mfT mfP).filter
                  (fun tp => (tp.1.getD 0 none).isSome)).map
                (fun tp => tp.2.getD 0 0)))),
            ("R2_lf", some (r2
              (((List.zip mfT mfP).filter
                  (fun tp => (tp.1.getD 0 none).isSome)).map
                (fun tp => (tp.1.getD 0 none).getD 0))
              (((List.zip mfT mfP).filter
                  (fun tp => (tp.1.getD 0 none).isSome)).map
                (fun tp => tp.2.getD 0 0))))]) ∧
    (model_type ≠ "single_fidelity" →
      ∀ t ts q qs, mfT = t :: ts → mfP = q :: qs → t.length = 1 →
      testMetricsCsv model_type mae rmse r2 sfT sfP mfT mfP =
        .error .indexError) ∧
    (∀ row, testMetricsCsv model_type mae rmse r2 sfT sfP mfT mfP =
        .ok row → ∀ j, j ∈ [3, 4, 5] →
      ((row.getD j ("", none)).2 = none ↔
        model_type = "single_fidelity")) := by
  by_cases hmt : model_type = "single_fidelity"
  · have hrow : testMetricsCsv model_type mae rmse r2 sfT sfP mfT mfP =
        .ok [("MAE_hf", some (mae sfT sfP)), ("RMSE_hf", some (rmse sfT sfP)),
             ("R2_hf", some (r2 sfT sfP)), ("MAE_lf", none),
             ("RMSE_lf", none), ("R2_lf", none)] := by
      unfold testMetricsCsv
      rw [if_pos hmt]
    refine ⟨?_, fun _ => hrow, fun h => absurd hmt h,
      fun h => absurd hmt h, ?_⟩
    · intro row hr
      rw [hrow] at hr
      obtain rfl := (Except.ok.injEq _ _).mp hr
      rfl
    · intro row hr j hj
      rw [hrow] at hr
      obtain rfl := (Except.ok.injEq _ _).mp hr
      rcases List.mem_cons.mp hj with rfl | hj
      · simpa using hmt
      rcases List.mem_cons.mp hj with rfl | hj
      · simpa using hmt
      rcases List.mem_cons.mp hj with rfl | hj
      · simpa using hmt
      · exact absurd hj (List.not_mem_nil j)
  · have hbranch : testMetricsCsv model_type mae rmse r2 sfT sfP mfT mfP =
        (do
          let c ← collectLfHf (List.zip mfT mfP)
          Except.ok [("MAE_hf", some (mae c.2.1 c.2.2)),
            ("RMSE_hf", some (rmse c.2.1 c.2.2)),
            ("R2_hf", some (r2 c.2.1 c.2.2)),
            ("MAE_lf", some (mae c.1.1 c.1.2)),
            ("RMSE_lf", some (rmse c.1.1 c.1.2)),
            ("R2_lf", some (r2 c.1.1 c.1.2))]) := by
      unfold testMetricsCsv
      rw [if_neg hmt]
    refine ⟨?_, fun h => absurd h hmt, ?_, ?_, ?_⟩
    · intro row hr
      rw [hbranch] at hr
      rcases hc : collectLfHf (List.zip mfT mfP) with e | c <;>
        rw [hc] at hr
      · exact absurd hr (by simp [Except.bind, bind])
      · simp only [Except.bind, bind] at hr
        obtain rfl := (Except.ok.injEq _ _).mp hr
        rfl
    · intro _ hlen
      rw [hbranch, collectLfHf_two_col (List.zip mfT mfP) hlen]
      rfl
    · rintro _ t ts q qs rfl rfl ht
      rw [hbranch, List.zip_cons_cons, collectLfHf_one_col t q _ ht]
      rfl
    · intro row hr j hj
      rw [hbranch] at hr
      rcases hc : collectLfHf (List.zip mfT mfP) with e | c <;>
        rw [hc] at hr
      · exact absurd hr (by simp [Except.bind, bind])
      · simp only [Except.bind, bind] at hr
        obtain rfl := (Except.ok.injEq _ _).mp hr
        rcases List.mem_cons.mp hj with rfl | hj
        · simpa using hmt
        rcases List.mem_cons.mp hj with rfl | hj
        · simpa using hmt
        rcases List.mem_cons.mp hj with rfl | hj
        · simpa using hmt
        · exact absurd hj (List.not_mem_nil j)

/-- Witness for C7 (amended): a multi-fidelity run with two-column targets
and one NaN LF target yields sum-metrics 4 (HF) and 2 (LF); a `delta_ml`
run with a one-column target row errors with `IndexError`. -/
theorem testMetricsCsv_spec_witness :
    (testMetricsCsv "multi_fidelity" (fun t _ => t.sum) (fun t _ => t.sum)
        (fun t _ => t.sum) [] [] [[none, some 1], [some 2, some 3]]
        [[5, 6], [7, 8]] =
      .ok [("MAE_hf", some 4), ("RMSE_hf", some 4), ("R2_hf", some 4),
           ("MAE_lf", some 2), ("RMSE_lf", some 2), ("R2_lf", some 2)]) ∧
    (testMetricsCsv "delta_ml" (fun t _ => t.sum) (fun t _ => t.sum)
        (fun t _ => t.sum) [] [] [[some 2]] [[9]] =
      .error .indexError) := by
  constructor
  · rw [(testMetricsCsv_spec "multi_fidelity" (fun t _ => t.sum)
      (fun t _ => t.sum) (fun t _ => t.sum) [] []
      [[none, some 1], [some 2, some 3]] [[5, 6], [7, 8]]).2.2.1
      (by decide) (by decide)]
    norm_num
  · exact (testMetricsCsv_spec "delta_ml" (fun t _ => t.sum)
      (fun t _ => t.sum) (fun t _ => t.sum) [] [] [[some 2]] [[9]]).2.2.2.1
      (by decide) [some 2] [] [9] [] rfl rfl rfl

/-- C1: for every non-empty list of molecular graphs, `collate_graphs`
flattens them with offset indices — each graph's `a2b` rows are its bond
indices shifted by the cumulative bond count of the preceding graphs plus the
one-slot padding, each `b2a` entry is the graph's atom index shifted by the
cumulative atom count (plus the padding slot), every `a2b` row is padded with
zeros to the length of the longest neighbor list in the batch (at least 1),
and `a_scope` / `b_scope` hold the per-graph `(start, count)` pairs with
starts beginning at 1 and each start equal to the previous start plus the
previous count. -/
theorem collate_graphs_spec (gs : List MolGraph) (hne : gs ≠ []) :
    (∀ i, i < gs.length → ∀ a, a < (gs.getD i default).n_atoms →
      (collate_graphs gs).a2b.getD (1 + sumAtomsBefore gs i + a) [] =
        ((gs.getD i default).a2b a).map
          (fun b => b + (1 + sumBondsBefore gs i)) ++
        List.replicate (max 1 (maxNbrLen gs) -
          ((gs.getD i default).a2b a).length) 0) ∧
    (∀ row ∈ (collate_graphs gs).a2b, row.length = max 1 (maxNbrLen gs)) ∧
    (∀ i, i < gs.length → ∀ b, b < (gs.getD i default).n_bonds →
      (collate_graphs gs).b2a.getD (1 + sumBondsBefore gs i + b) 0 =
        1 + sumAtomsBefore gs i + (gs.getD i default).b2a b) ∧
    ((collate_graphs gs).a_scope.length = gs.length ∧
     (collate_graphs gs).b_scope.length = gs.length) ∧
    (∀ i, i < gs.length →
      (collate_graphs gs).a_scope.getD i (0, 0) =
        (1 + sumAtomsBefore gs i, (gs.getD i default).n_atoms) ∧
      (collate_graphs gs).b_scope.getD i (0, 0) =
        (1 + sumBondsBefore gs i, (gs.getD i default).n_bonds)) ∧
    (((collate_graphs gs).a_scope.getD 0 (0, 0)).1 = 1 ∧
     ((collate_graphs gs).b_scope.getD 0 (0, 0)).1 = 1) ∧
    (∀ i, i + 1 < gs.length →
      ((collate_graphs gs).a_scope.getD (i + 1) (0, 0)).1 =
        ((collate_graphs gs).a_scope.getD i (0, 0)).1 +
        ((collate_graphs gs).a_scope.getD i (0, 0)).2 ∧
      ((collate_graphs gs).b_scope.getD (i + 1) (0, 0)).1 =
        ((collate_graphs gs).b_scope.getD i (0, 0)).1 +
        ((collate_graphs gs).b_scope.getD i (0, 0)).2) := by
  have h0 : 0 < gs.length := List.length_pos.mpr hne
  rw [collate_graphs_eq]
  dsimp only
  have hscope : ∀ i, i < gs.length →
      (scopeList 1 (gs.map MolGraph.n_atoms)).getD i (0, 0) =
        (1 + sumAtomsBefore gs i, (gs.getD i default).n_atoms) ∧
      (scopeList 1 (gs.map MolGraph.n_bonds)).getD i (0, 0) =
        (1 + sumBondsBefore gs i, (gs.getD i default).n_bonds) := by
    intro i hi
    rw [getD_scopeList _ _ _ (by simpa using hi),
      getD_scopeList _ _ _ (by simpa using hi),
      take_map_natoms_sum, take_map_nbonds_sum,
      getD_map_natoms gs i hi, getD_map_nbonds gs i hi]
    exact ⟨rfl, rfl⟩
  refine ⟨?_, ?_, ?_, ?_, hscope, ?_, ?_⟩
  · intro i hi a ha
    have hidx : sumAtomsBefore gs i + a < sumAtoms gs :=
      sumAtomsBefore_add_lt gs i a hi ha
    have hlt : 1 + sumAtomsBefore gs i + a <
        ([] :: batchA2b 1 gs).length := by
      simp [length_batchA2b]
      omega
    have hmap : (([] :: batchA2b 1 gs).map
        (padRow (max 1 (maxNbrLen gs)))).getD (1 + sumAtomsBefore gs i + a)
          [] = padRow (max 1 (maxNbrLen gs))
            (([] :: batchA2b 1 gs).getD (1 + sumAtomsBefore gs i + a) []) := by
      rw [List.getD_eq_getElem _ _ (by simpa using hlt), List.getElem_map,
        List.getD_eq_getElem _ _ hlt]
    have hsucc : 1 + sumAtomsBefore gs i + a =
        (sumAtomsBefore gs i + a) + 1 := by omega
    rw [hmap, hsucc, List.getD_cons_succ, getD_batchA2b gs 1 i a hi ha]
    simp [padRow]
  · intro row hrow
    obtain ⟨l0, hl0, rfl⟩ := List.mem_map.mp hrow
    have hle : l0.length ≤ maxLen ([] :: batchA2b 1 gs) :=
      length_le_maxLen _ _ hl0
    have hm : maxLen ([] :: batchA2b 1 gs) = maxNbrLen gs := by
      have h : ([] :: batchA2b 1 gs) = [([] : List Nat)] ++ batchA2b 1 gs :=
        rfl
      rw [h, maxLen_append, maxLen_batchA2b]
      have h1 : maxLen [([] : List Nat)] = 0 := rfl
      rw [h1]
      omega
    rw [hm] at hle
    simp [padRow]
    omega
  · intro i hi b hb
    have hsucc : 1 + sumBondsBefore gs i + b =
        (sumBondsBefore gs i + b) + 1 := by omega
    rw [hsucc, List.getD_cons_succ]
    exact getD_batchB2a gs 1 i b hi hb
  · constructor <;> simp [length_scopeList]
  · have ha := (hscope 0 h0).1
    have hb := (hscope 0 h0).2
    rw [ha, hb, sumAtomsBefore_zero, sumBondsBefore_zero]
    exact ⟨rfl, rfl⟩
  · intro i hi1
    have hi : i < gs.length := by omega
    obtain ⟨ha1, hb1⟩ := hscope i hi
    obtain ⟨ha2, hb2⟩ := hscope (i + 1) hi1
    rw [ha1, hb1, ha2, hb2, sumAtomsBefore_succ gs i hi,
      sumBondsBefore_succ gs i hi]
    constructor <;> dsimp <;> omega

/-- Witness for C1: the batch of a two-atom graph followed by a one-atom
graph, checked at graph 1's atom 0, graph 0's bond 1 and the scopes. -/
theorem collate_graphs_spec_witness :
    (collate_graphs [g1Demo, g2Demo]).a2b.getD
      (1 + sumAtomsBefore [g1Demo, g2Demo] 1 + 0) [] =
      (([g1Demo, g2Demo].getD 1 default).a2b 0).map
        (fun b => b + (1 + sumBondsBefore [g1Demo, g2Demo] 1)) ++
      List.replicate (max 1 (maxNbrLen [g1Demo, g2Demo]) -
        (([g1Demo, g2Demo].getD 1 default).a2b 0).length) 0 ∧
    (collate_graphs [g1Demo, g2Demo]).b2a.getD
      (1 + sumBondsBefore [g1Demo, g2Demo] 0 + 1) 0 =
      1 + sumAtomsBefore [g1Demo, g2Demo] 0 +
        ([g1Demo, g2Demo].getD 0 default).b2a 1 ∧
    (collate_graphs [g1Demo, g2Demo]).a_scope.getD 1 (0, 0) =
      (1 + sumAtomsBefore [g1Demo, g2Demo] 1,
       ([g1Demo, g2Demo].getD 1 default).n_atoms) ∧
    ((collate_graphs [g1Demo, g2Demo]).a_scope.getD 0 (0, 0)).1 = 1 :=
  have h := collate_graphs_spec [g1Demo, g2Demo] (by simp)
  ⟨h.1 1 (by norm_num) 0 (by simp [g2Demo]),
   h.2.2.1 0 (by norm_num) 1 (by simp [g1Demo]),
   (h.2.2.2.2.1 1 (by norm_num)).1,
   h.2.2.2.2.2.1.1⟩

/-- C6: index 0 of the batch is a null element — row 0 of the concatenated
`X_v` and `X_e` is the all-zero padding row, `b2a[0] = 0` and
`b2revb[0] = 0`, row 0 of `a2b` is all zeros, and every `a2b` row is its
(offset) neighbor list followed by zero padding, so indexing any of these
arrays with the padding index 0 yields zeros. -/
theorem collate_graphs_zero_padding (gs : List MolGraph) (hne : gs ≠ []) :
    (collate_graphs gs).X_v.getD 0 [] =
      List.replicate gs.headI.X_v.length 0 ∧
    (∀ q ∈ (collate_graphs gs).X_v.getD 0 [], q = 0) ∧
    (collate_graphs gs).X_e.getD 0 [] =
      List.replicate gs.headI.X_e.length 0 ∧
    (∀ q ∈ (collate_graphs gs).X_e.getD 0 [], q = 0) ∧
    (collate_graphs gs).b2a.getD 0 0 = 0 ∧
    (collate_graphs gs).b2revb.getD 0 0 = 0 ∧
    (collate_graphs gs).a2b.getD 0 [] =
      List.replicate (max 1 (maxNbrLen gs)) 0 ∧
    (collate_graphs gs).a2b = ([] :: batchA2b 1 gs).map
      (fun l => l ++ List.replicate (max 1 (maxNbrLen gs) - l.length) 0) := by
  rw [collate_graphs_eq]
  dsimp only
  refine ⟨List.getD_cons_zero, ?_, List.getD_cons_zero, ?_,
    List.getD_cons_zero, List.getD_cons_zero, ?_, ?_⟩
  · intro q hq
    rw [List.getD_cons_zero] at hq
    exact List.eq_of_mem_replicate hq
  · intro q hq
    rw [List.getD_cons_zero] at hq
    exact List.eq_of_mem_replicate hq
  · rw [List.map_cons, List.getD_cons_zero]
    simp [padRow]
  · rfl

/-- Witness for C6 at a concrete batch. -/
theorem collate_graphs_zero_padding_witness :
    (collate_graphs [g1Demo, g2Demo]).X_v.getD 0 [] =
      List.replicate [g1Demo, g2Demo].headI.X_v.length 0 ∧
    (collate_graphs [g1Demo, g2Demo]).b2a.getD 0 0 = 0 ∧
    (collate_graphs [g1Demo, g2Demo]).b2revb.getD 0 0 = 0 ∧
    (collate_graphs [g1Demo, g2Demo]).a2b.getD 0 [] =
      List.replicate (max 1 (maxNbrLen [g1Demo, g2Demo])) 0 :=
  have h := collate_graphs_zero_padding [g1Demo, g2Demo] (by simp)
  ⟨h.1, h.2.2.2.2.1, h.2.2.2.2.2.1, h.2.2.2.2.2.2.1⟩

/-- C2: for every run whose model type is not `single_fidelity`, the LF
column is first initialised as an exact copy of the HF column, then each
enabled degradation is added onto it — the polynomial in the HF values when
`add_pn_bias_to_make_lf > 0` (with the drawn coefficient vector of length
order + 1), the constant when `add_constant_bias_to_make_lf` is nonzero, the
seeded Gaussian noise vector when `add_gauss_noise_to_make_lf > 0`, and the
weighted 13-descriptor sums when `add_descriptor_bias_to_make_lf` is nonzero
— while the HF column itself is unchanged. -/
theorem synthesizeLf_spec (a : Args) (df : DataFrame)
    (pnCoeffs gaussVals descVals hfv : List ℚ)
    (hmt : a.model_type ≠ "single_fidelity")
    (hcols : a.hf_col_name ≠ a.lf_col_name)
    (hhf : df.getCol a.hf_col_name = .ok hfv)
    (hpn : pnCoeffs.length = (a.add_pn_bias_to_make_lf + 1).toNat)
    (hg : gaussVals.length = hfv.length)
    (hd : descVals.length = hfv.length) :
    ∃ df2 lfv, synthesizeLf a df pnCoeffs gaussVals descVals = .ok df2 ∧
      df2.getCol a.hf_col_name = .ok hfv ∧
      df2.getCol a.lf_col_name = .ok lfv ∧
      lfv.length = hfv.length ∧
      ∀ i, i < hfv.length →
        lfv.getD i 0 = hfv.getD i 0 +
          (if a.add_pn_bias_to_make_lf > 0 then polyval pnCoeffs (hfv.getD i 0)
           else 0) +
          (if a.add_constant_bias_to_make_lf ≠ 0 then
            a.add_constant_bias_to_make_lf else 0) +
          (if a.add_gauss_noise_to_make_lf > 0 then gaussVals.getD i 0
           else 0) +
          (if a.add_descriptor_bias_to_make_lf ≠ 0 then descVals.getD i 0
           else 0) := by
  have h1 : stepCopyHfToLf a df = .ok (df.setCol a.lf_col_name hfv) :=
    stepCopyHfToLf_spec a df hfv hmt hhf
  have h1hf : (df.setCol a.lf_col_name hfv).getCol a.hf_col_name = .ok hfv := by
    rw [getCol_setCol_ne _ _ _ _ (Ne.symm hcols)]; exact hhf
  have h1lf := getCol_setCol_same df a.lf_col_name hfv
  obtain ⟨df2, h2, h2hf, h2lf⟩ :=
    stepPnBias_spec a pnCoeffs _ hfv hfv hcols h1lf h1hf
  obtain ⟨df3, h3, h3hf, h3lf⟩ := stepConstBias_spec a df2 _ hfv hcols h2lf h2hf
  obtain ⟨df4, h4, h4hf, h4lf⟩ :=
    stepGaussNoise_spec a gaussVals df3 _ hfv hcols h3lf h3hf
  obtain ⟨df5, h5, h5hf, h5lf⟩ :=
    stepDescriptorBias_spec a descVals df4 _ hfv hcols h4lf h4hf
  have h5lfS : df5.getCol a.lf_col_name =
      .ok (lfSynth a pnCoeffs gaussVals descVals hfv) := h5lf
  refine ⟨df5, lfSynth a pnCoeffs gaussVals descVals hfv, ?_, h5hf, h5lfS,
    length_lfSynth a pnCoeffs gaussVals descVals hfv hg hd,
    fun i hi => getD_lfSynth a pnCoeffs gaussVals descVals hfv hg hd i hi⟩
  unfold synthesizeLf
  rw [h1]
  show (stepPnBias a pnCoeffs _).bind _ = _
  rw [h2]
  show (stepConstBias a df2).bind _ = _
  rw [h3]
  show (stepGaussNoise a gaussVals df3).bind _ = _
  rw [h4]
  show stepDescriptorBias a descVals df4 = _
  exact h5

/-- Witness for C2 at concrete inputs. -/
theorem synthesizeLf_spec_witness :
    ∃ df2 lfv,
      synthesizeLf argsMfDemo dfDemo [2, 3] [7, 9] [0, 0] = .ok df2 ∧
      df2.getCol argsMfDemo.hf_col_name = .ok [1, 2] ∧
      df2.getCol argsMfDemo.lf_col_name = .ok lfv ∧
      lfv.length = ([1, 2] : List ℚ).length ∧
      ∀ i, i < ([1, 2] : List ℚ).length →
        lfv.getD i 0 = ([1, 2] : List ℚ).getD i 0 +
          (if argsMfDemo.add_pn_bias_to_make_lf > 0 then
            polyval [2, 3] (([1, 2] : List ℚ).getD i 0) else 0) +
          (if argsMfDemo.add_constant_bias_to_make_lf ≠ 0 then
            argsMfDemo.add_constant_bias_to_make_lf else 0) +
          (if argsMfDemo.add_gauss_noise_to_make_lf > 0 then
            ([7, 9] : List ℚ).getD i 0 else 0) +
          (if argsMfDemo.add_descriptor_bias_to_make_lf ≠ 0 then
            ([0, 0] : List ℚ).getD i 0 else 0) :=
  synthesizeLf_spec argsMfDemo dfDemo [2, 3] [7, 9] [0, 0] [1, 2]
    (by decide) (by decide) rfl rfl rfl rfl

/-- C10: with `model_type = "single_fidelity"` and only the constant bias
nonzero, the incompatible-flag validation does not raise; no step initialises
the LF column (the HF-copy block is skipped), and the constant-bias block
still targets the LF column name — adding the constant to it when that column
happens to exist, and raising `KeyError` on it when it does not. -/
theorem singleFidelity_constBias_applied (a : Args) (df : DataFrame)
    (pnCoeffs gaussVals descVals lfv : List ℚ)
    (hmt : a.model_type = "single_fidelity")
    (hc : a.add_constant_bias_to_make_lf ≠ 0)
    (hpn : a.add_pn_bias_to_make_lf = 0)
    (hga : a.add_gauss_noise_to_make_lf = 0)
    (hde : a.add_descriptor_bias_to_make_lf = 0)
    (hlf : df.getCol a.lf_col_name = .ok lfv) :
    validateArgs a = .ok () ∧
    (∃ df2, synthesizeLf a df pnCoeffs gaussVals descVals = .ok df2 ∧
      df2.getCol a.lf_col_name =
        .ok (lfv.map (fun x => x + a.add_constant_bias_to_make_lf))) ∧
    (∀ df3, df3.getCol a.lf_col_name = .error (.keyError a.lf_col_name) →
      synthesizeLf a df3 pnCoeffs gaussVals descVals =
        .error (.keyError a.lf_col_name)) := by
  have s1 : ∀ d : DataFrame, stepCopyHfToLf a d = .ok d := fun d => by
    unfold stepCopyHfToLf; rw [if_neg (by simp [hmt])]; rfl
  have s2 : ∀ d : DataFrame, stepPnBias a pnCoeffs d = .ok d := fun d => by
    unfold stepPnBias; rw [if_neg (by simp [hpn])]; rfl
  have s4 : ∀ d : DataFrame, stepGaussNoise a gaussVals d = .ok d := fun d => by
    unfold stepGaussNoise; rw [if_neg (by simp [hga])]; rfl
  have s5 : ∀ d : DataFrame, stepDescriptorBias a descVals d = .ok d :=
    fun d => by
      unfold stepDescriptorBias; rw [if_neg (by simp [hde])]; rfl
  refine ⟨?_, ?_, ?_⟩
  · unfold validateArgs
    rw [if_neg, if_neg]
    · rintro (h | h) <;> rw [hmt] at h <;> exact absurd h (by decide)
    · rintro ⟨-, h | h | h⟩
      · rw [hpn] at h; exact absurd h (by norm_num)
      · rw [hga] at h; exact absurd h (by norm_num)
      · rw [hde] at h; exact absurd h (by norm_num)
  · have s3 : stepConstBias a df = .ok (df.setCol a.lf_col_name
        (lfv.map (fun x => x + a.add_constant_bias_to_make_lf))) := by
      unfold stepConstBias; rw [if_pos hc, hlf]; rfl
    refine ⟨df.setCol a.lf_col_name
      (lfv.map (fun x => x + a.add_constant_bias_to_make_lf)), ?_,
      getCol_setCol_same _ _ _⟩
    unfold synthesizeLf
    rw [s1 df]
    show (stepPnBias a pnCoeffs df).bind _ = _
    rw [s2 df]
    show (stepConstBias a df).bind _ = _
    rw [s3]
    show (stepGaussNoise a gaussVals _).bind _ = _
    rw [s4]
    show stepDescriptorBias a descVals _ = _
    exact s5 _
  · intro df3 hlf3
    have s3e : stepConstBias a df3 = .error (.keyError a.lf_col_name) := by
      unfold stepConstBias; rw [if_pos hc, hlf3]; rfl
    unfold synthesizeLf
    rw [s1 df3]
    show (stepPnBias a pnCoeffs df3).bind _ = _
    rw [s2 df3]
    show (stepConstBias a df3).bind _ = _
    rw [s3e]
    rfl

/-- Witness for C10 at concrete inputs. -/
theorem singleFidelity_constBias_applied_witness :
    validateArgs argsSfConstDemo = .ok () ∧
    (∃ df2, synthesizeLf argsSfConstDemo dfBothColsDemo [] [] [] = .ok df2 ∧
      df2.getCol argsSfConstDemo.lf_col_name =
        .ok (([10, 20] : List ℚ).map
          (fun x => x + argsSfConstDemo.add_constant_bias_to_make_lf))) ∧
    (∀ df3, df3.getCol argsSfConstDemo.lf_col_name =
        .error (.keyError argsSfConstDemo.lf_col_name) →
      synthesizeLf argsSfConstDemo df3 [] [] [] =
        .error (.keyError argsSfConstDemo.lf_col_name)) :=
  singleFidelity_constBias_applied argsSfConstDemo dfBothColsDemo [] [] []
    [10, 20] rfl (by decide) rfl rfl rfl rfl

/-- C8: `str2bool` returns a `bool` input unchanged; on a string it returns
`True` exactly when the lower-cased string is one of the truthy strings,
`False` exactly when it is one of the falsy strings, and raises
`ArgumentTypeError` for every other string. -/
theorem str2bool_spec (v : StrOrBool) :
    (∀ b, v = StrOrBool.bool b → str2bool v = .ok b) ∧
    (∀ s, v = StrOrBool.str s →
      (str2bool v = .ok true ↔ pyLower s ∈ truthyStrings) ∧
      (str2bool v = .ok false ↔ pyLower s ∈ falsyStrings) ∧
      (str2bool v = .error .argumentTypeError ↔
        pyLower s ∉ truthyStrings ∧ pyLower s ∉ falsyStrings)) := by
  constructor
  · rintro b rfl; rfl
  · rintro s rfl
    by_cases h1 : pyLower s ∈ truthyStrings
    · have h2 : pyLower s ∉ falsyStrings := by
        intro h2
        simp only [truthyStrings, List.mem_cons, List.mem_singleton,
          List.not_mem_nil, or_false] at h1
        rcases h1 with h | h | h | h | h <;>
          rw [h] at h2 <;> simp [falsyStrings] at h2
      simp [str2bool, h1, h2]
    · by_cases h2 : pyLower s ∈ falsyStrings
      · simp [str2bool, h1, h2]
      · simp [str2bool, h1, h2]

/-- Witness for C8 at concrete inputs. -/
theorem str2bool_spec_witness :
    str2bool (StrOrBool.bool false) = .ok false ∧
    str2bool (StrOrBool.str "Yes") = .ok true ∧
    str2bool (StrOrBool.str "maybe") = .error .argumentTypeError :=
  ⟨(str2bool_spec (StrOrBool.bool false)).1 false rfl,
   ((str2bool_spec (StrOrBool.str "Yes")).2 "Yes" rfl).1.mpr (by decide),
   ((str2bool_spec (StrOrBool.str "maybe")).2 "maybe" rfl).2.2.mpr (by decide)⟩

/-- If validation errors, `mainSetup` propagates the error and performs no
effect. -/
theorem mainSetup_error (a : Args) (ts : String) (e : PyError)
    (h : validateArgs a = .error e) : mainSetup a ts = .error e := by
  unfold mainSetup
  rw [h]
  rfl

/-- C4: a `single_fidelity` run with a positive pn-bias, gauss-noise or
descriptor-bias flag makes `main` raise `ValueError` before any filesystem
effect, and the two unimplemented model types make it raise
`NotImplementedError` before any effect: in both cases `mainSetup` returns an
error instead of an effect list. -/
theorem mainSetup_validation (a : Args) (ts : String) :
    (a.model_type = "single_fidelity" →
      (a.add_pn_bias_to_make_lf > 0 ∨ a.add_gauss_noise_to_make_lf > 0 ∨
        a.add_descriptor_bias_to_make_lf > 0) →
      mainSetup a ts = .error .valueError) ∧
    ((a.model_type = "multi_fidelity_weight_sharing_non_diff" ∨
      a.model_type = "trad_delta_ml") →
      mainSetup a ts = .error .notImplementedError) := by
  constructor
  · intro h1 h2
    apply mainSetup_error
    simp [validateArgs, h1, h2]
  · intro h
    apply mainSetup_error
    have hne : ¬(a.model_type = "single_fidelity" ∧
        (a.add_pn_bias_to_make_lf > 0 ∨ a.add_gauss_noise_to_make_lf > 0 ∨
          a.add_descriptor_bias_to_make_lf > 0)) := by
      rintro ⟨hc, -⟩
      rcases h with h | h <;> rw [h] at hc <;> exact absurd hc (by decide)
    simp [validateArgs, hne, h]

/-- An argument set hitting the `single_fidelity` bias check. -/
def argsSfPnBias : Args :=
  { model_type := "single_fidelity", hf_col_name := "h298",
    lf_col_name := "h298_lf", add_pn_bias_to_make_lf := 2,
    add_constant_bias_to_make_lf := 0, add_gauss_noise_to_make_lf := 0,
    add_descriptor_bias_to_make_lf := 0, lf_hf_size_ratio := 1,
    lf_superset_of_hf := false, seed := 0, results_dir := "results" }

/-- An argument set hitting the not-implemented check. -/
def argsTradDeltaMl : Args :=
  { argsSfPnBias with model_type := "trad_delta_ml", add_pn_bias_to_make_lf := 0 }

/-- C5: on every constructed `MoleculeDataLoader`, the `targets`, `gt_targets`
and `lt_targets` properties never return a value — with class balance or
shuffle enabled they raise `ValueError`, and otherwise the sampler stored at
construction is `None`, so iterating it (and `len` in `iter_size`) raises
`TypeError`. -/
theorem moleculeDataLoader_targets_never (ds : List MoleculeDatapoint)
    (cb sh : Bool) (seed : Option Int) :
    ((cb ∨ sh) →
      (mkLoader ds cb seed sh).targets = .error .valueError ∧
      (mkLoader ds cb seed sh).gt_targets = .error .valueError ∧
      (mkLoader ds cb seed sh).lt_targets = .error .valueError) ∧
    (¬(cb ∨ sh) →
      (mkLoader ds cb seed sh).sampler = none ∧
      (mkLoader ds cb seed sh).targets = .error .typeError ∧
      (mkLoader ds cb seed sh).iter_size = .error .typeError ∧
      (ds ≠ [] →
        (mkLoader ds cb seed sh).gt_targets = .error .typeError ∧
        (mkLoader ds cb seed sh).lt_targets = .error .typeError)) ∧
    (∀ r, (mkLoader ds cb seed sh).targets ≠ .ok r) ∧
    (∀ r, (mkLoader ds cb seed sh).gt_targets ≠ .ok r) ∧
    (∀ r, (mkLoader ds cb seed sh).lt_targets ≠ .ok r) := by
  cases cb <;> cases sh <;> cases ds <;>
    simp [mkLoader, mkSampler, MoleculeDataLoader.targets,
      MoleculeDataLoader.gt_targets, MoleculeDataLoader.lt_targets,
      MoleculeDataLoader.iter_size, iterateSampler, samplerLen, datasetGet0,
      Except.bind, bind]

/-- Witness for C5 at concrete loaders. -/
theorem moleculeDataLoader_targets_never_witness :
    (mkLoader [] false none false).targets = .error .typeError ∧
    (mkLoader [{ smi := "C", targets := [some 1] }] true none false).targets =
      .error .valueError :=
  ⟨((moleculeDataLoader_targets_never [] false false none).2.1 (by simp)).2.1,
   ((moleculeDataLoader_targets_never [{ smi := "C", targets := [some 1] }]
      true false none).1 (Or.inl rfl)).1⟩

/-- Witness for C4 at concrete arguments. -/
theorem mainSetup_validation_witness :
    mainSetup argsSfPnBias "2026-01-01" = .error .valueError ∧
    mainSetup argsTradDeltaMl "2026-01-01" = .error .notImplementedError :=
  ⟨(mainSetup_validation argsSfPnBias "2026-01-01").1 rfl (Or.inl (by norm_num [argsSfPnBias])),
   (mainSetup_validation argsTradDeltaMl "2026-01-01").2 (Or.inr rfl)⟩
